import Mathlib

/-!
Verification development for the Qwen3_arena order translation and guardrail
engine (`backend/app/services/{contract_meta,translators,orders}.py`).

Numeric values (Python floats passed through `Decimal(str(x))` exact decimal
arithmetic) are modelled as rationals `ℚ`; machine formatting of numbers into
fixed-decimal strings is modelled by the `PVal.fnum` constructor carrying the
numeric value and the decimal precision used.  Fallible code returns
`Except OrderErr`; each `OrderErr` constructor corresponds to one distinct
`ValueError` message raised by the source.
-/

namespace Arena

/-- Truncation toward zero, the semantics of Python `Decimal`
`to_integral_value(rounding=ROUND_DOWN)` and of `int(...)` on a float. -/
def truncToward0 (q : ℚ) : ℤ :=
  if 0 ≤ q then ⌊q⌋ else ⌈q⌉

/-- Embedding of `contract_meta._quantize_down`: floor `value` to an integer
multiple of `tick` (truncating toward zero), returning `value` unchanged when
the tick is not positive.  The `math.isfinite` guard of the source is vacuous
here because every `ℚ` is finite. -/
def quantize_down (value tick : ℚ) : ℚ :=
  if tick ≤ 0 then value
  else (truncToward0 (value / tick) : ℚ) * tick

/-- Embedding of the `ContractMeta` dataclass of `contract_meta.py`. -/
structure ContractMeta where
  symbol : String
  price_scale : Int
  size_scale : Int
  price_tick : ℚ
  size_tick : ℚ
  min_size : Option ℚ := none
deriving DecidableEq

/-- `ContractMeta.quantize_price`: `_quantize_down(value, priceTick)`. -/
def ContractMeta.quantize_price (m : ContractMeta) (v : ℚ) : ℚ :=
  quantize_down v m.price_tick

/-- `ContractMeta.quantize_size`: `_quantize_down(value, sizeTick)`. -/
def ContractMeta.quantize_size (m : ContractMeta) (v : ℚ) : ℚ :=
  quantize_down v m.size_tick

/-- `DEFAULT_CONTRACT_META` of `contract_meta.py`. -/
def DEFAULT_CONTRACT_META : ContractMeta :=
  { symbol := "DEFAULT", price_scale := 1, size_scale := 6,
    price_tick := 1/10, size_tick := 1/1000000, min_size := none }

theorem truncToward0_nonneg_eq_floor (q : ℚ) (h : 0 ≤ q) :
    truncToward0 q = ⌊q⌋ := by
  simp [truncToward0, h]

theorem quantize_down_mul_self (x t : ℚ) (ht : 0 < t) (hx : 0 ≤ x) :
    quantize_down x t = (⌊x / t⌋ : ℚ) * t := by
  have hx' : (0:ℚ) ≤ x / t := div_nonneg hx ht.le
  simp [quantize_down, not_le.mpr ht, truncToward0_nonneg_eq_floor _ hx']

theorem quantize_down_le (x t : ℚ) (ht : 0 < t) (hx : 0 ≤ x) :
    quantize_down x t ≤ x := by
  rw [quantize_down_mul_self x t ht hx]
  have h1 : (⌊x / t⌋ : ℚ) ≤ x / t := Int.floor_le _
  calc (⌊x / t⌋ : ℚ) * t ≤ (x / t) * t := by
        exact mul_le_mul_of_nonneg_right h1 ht.le
    _ = x := div_mul_cancel₀ x (ne_of_gt ht)

theorem quantize_down_idem (x t : ℚ) (ht : 0 < t) (hx : 0 ≤ x) :
    quantize_down (quantize_down x t) t = quantize_down x t := by
  rw [quantize_down_mul_self x t ht hx]
  have hk : (0:ℚ) ≤ (⌊x / t⌋ : ℚ) := by
    have : (0:ℤ) ≤ ⌊x / t⌋ := Int.floor_nonneg.mpr (div_nonneg hx ht.le)
    exact_mod_cast this
  have hmul : (0:ℚ) ≤ (⌊x / t⌋ : ℚ) * t := mul_nonneg hk ht.le
  rw [quantize_down_mul_self _ t ht hmul]
  have hdiv : ((⌊x / t⌋ : ℚ) * t) / t = (⌊x / t⌋ : ℚ) :=
    mul_div_cancel_right₀ _ (ne_of_gt ht)
  rw [hdiv, Int.floor_intCast]

theorem quantize_down_dvd (x t : ℚ) (ht : 0 < t) (hx : 0 ≤ x) :
    ∃ k : ℤ, quantize_down x t = (k : ℚ) * t :=
  ⟨⌊x / t⌋, quantize_down_mul_self x t ht hx⟩

/-! ### Data model (`schemas.py`, `translators.py`) -/

/-- `BattleAction` of `schemas.py` (`CATCH = throw_pokeball`, `RELEASE =
release_pokemon`, `HEAL = use_potion`, `RUN = run_away`). -/
inductive BattleAction
  | CATCH
  | RELEASE
  | HEAL
  | RUN
deriving DecidableEq

/-- `OrderStyle` of `schemas.py`. -/
inductive OrderStyle
  | MARKET
  | LIMIT
deriving DecidableEq

/-- String value of an `OrderStyle` (`order_style.value`). -/
def OrderStyle.value : OrderStyle → String
  | .MARKET => "market"
  | .LIMIT => "limit"

/-- `StopLossMode` of `schemas.py`. -/
inductive StopLossMode
  | PRICE
  | PERCENT
deriving DecidableEq

/-- `TriggerSource` of `schemas.py`. -/
inductive TriggerSource
  | MARK
  | LAST
deriving DecidableEq

/-- `EncounterOrder` of `schemas.py`, restricted to the fields the engine
reads.  The legacy `stop_loss` alias is resolved into
`stop_loss_mode`/`stop_loss_value` by a pydantic validator before the engine
sees the order, so only the resolved fields are modelled. -/
structure EncounterOrder where
  species : String
  action : BattleAction := .CATCH
  order_style : OrderStyle := .MARKET
  pokeball_strength : ℚ := 0
  quote_hp : Option ℚ := none
  limit_price : Option ℚ := none
  level : Int := 1
  lv : Option Int := none
  demo_mode : Bool := false
  stop_loss_mode : Option StopLossMode := none
  stop_loss_value : Option ℚ := none
  stop_loss_trigger : TriggerSource := .MARK
  client_adventure_id : Option String := none
deriving DecidableEq

/-- `SpeciesProfile` of `translators.py` (display metadata fields that the
engine never reads are omitted). -/
structure SpeciesProfile where
  display_name : String
  spot_symbol : String
  perp_symbol : Option String := none
  pip_precision : Int := 2
  size_precision : Int := 4
  perp_pip_precision : Option Int := none
  perp_size_precision : Option Int := none
  max_leverage : Int := 50
deriving DecidableEq

/-- Python truthiness of `profile.perp_symbol` (an `Optional[str]`):
present and non-empty. -/
def hasPerpSymbol (p : SpeciesProfile) : Bool :=
  match p.perp_symbol with
  | none => false
  | some s => !(s == "")

/-- A payload value.  `s` is a plain string; `fnum v prec` stands for the
string produced by Python fixed-decimal formatting of the number `v` with
`prec` decimal places. -/
inductive PVal
  | s (v : String)
  | fnum (v : ℚ) (prec : Int)
deriving DecidableEq

/-- Exchange payloads are Python dicts with string keys; modelled as
insertion-ordered association lists with unique keys. -/
abbrev Payload := List (String × PVal)

/-- Dict lookup `payload.get(key)`. -/
def pget (p : Payload) (k : String) : Option PVal :=
  (p.find? (fun e => e.1 = k)).map (·.2)

/-- Dict key-membership `key in payload`. -/
def phas (p : Payload) (k : String) : Bool :=
  p.any (fun e => e.1 = k)

/-- Dict assignment `payload[key] = value`: overwrite in place when the key
exists, append otherwise. -/
def pset (p : Payload) (k : String) (v : PVal) : Payload :=
  if p.any (fun e => e.1 = k) then
    p.map (fun e => if e.1 = k then (k, v) else e)
  else p ++ [(k, v)]

/-- Dict deletion `payload.pop(key, None)`. -/
def pdrop (p : Payload) (k : String) : Payload :=
  p.filter (fun e => !(e.1 = k))

/-- `ExchangePreparation` of `translators.py`. -/
structure ExchangePreparation where
  route : String
  direction : String
  payload : Payload
  profile : SpeciesProfile
  client_oid : String
  hold_side : Option String := none
  position_mode : Option String := none
  contract_meta : Option ContractMeta := none
deriving DecidableEq

/-- `PokemonTranslator._format_price`: pick the route's price precision and
render with that many decimals. -/
def formatPrice (profile : SpeciesProfile) (route : String) (price : ℚ) : PVal :=
  match route, profile.perp_pip_precision with
  | "perp", some p => .fnum price (max 0 p)
  | _, _ => .fnum price (max 0 profile.pip_precision)

/-- `PokemonTranslator._format_size`: pick the route's size precision and
render with that many decimals. -/
def formatSize (profile : SpeciesProfile) (route : String) (size : ℚ) : PVal :=
  match route, profile.perp_size_precision with
  | "perp", some p => .fnum size (max 0 p)
  | _, _ => .fnum size (max 0 profile.size_precision)

/-- `PokemonTranslator.to_exchange_payload`, with the species profile already
resolved and the freshly generated uuid supplied as `client_oid` (the one
non-deterministic input).  `margin_mode` is the translator's configured
margin mode (default `"crossed"`). -/
def toExchangePayload (profile : SpeciesProfile) (client_oid : String)
    (margin_mode : String) (order : EncounterOrder) : ExchangePreparation :=
  let has_stop_loss :=
    order.stop_loss_mode.isSome && order.stop_loss_value.isSome &&
      hasPerpSymbol profile
  let route0 :=
    if has_stop_loss then "perp"
    else if 2 ≤ order.level ∧ hasPerpSymbol profile then "perp" else "spot"
  let route := if route0 = "perp" ∧ ¬ hasPerpSymbol profile then "spot" else route0
  let dirHold : String × Option String :=
    if route = "perp" then
      if order.action = BattleAction.RELEASE then ("short", some "short")
      else ("long", some "long")
    else ("spot_long", none)
  let direction := dirHold.1
  let hold_side := dirHold.2
  let payload : Payload :=
    if route = "perp" then
      let base : Payload :=
        [("symbol", .s ((profile.perp_symbol).getD "")),
         ("marginMode", .s margin_mode),
         ("marginCoin", .s "USDT"),
         ("clientOid", .s client_oid),
         ("productType", .s "USDT-FUTURES"),
         ("side", .s (if direction = "long" then "buy" else "sell")),
         ("orderType", .s order.order_style.value),
         ("timeInForceValue", .s "normal"),
         ("size", formatSize profile route order.pokeball_strength),
         ("posSide", .s (if direction = "long" then "long" else "short"))]
      match order.order_style, order.limit_price with
      | .LIMIT, some lp => pset base "price" (formatPrice profile route lp)
      | _, _ => base
    else
      let base : Payload :=
        [("symbol", .s profile.spot_symbol),
         ("clientOid", .s client_oid),
         ("side", .s (if order.action = BattleAction.RELEASE then "sell" else "buy")),
         ("orderType", .s order.order_style.value),
         ("force", .s "gtc"),
         ("size", formatSize profile route order.pokeball_strength)]
      match order.order_style, order.limit_price with
      | .LIMIT, some lp => pset base "price" (formatPrice profile route lp)
      | _, _ => base
  { route := route, direction := direction, payload := payload,
    profile := profile, client_oid := client_oid, hold_side := hold_side,
    position_mode := none, contract_meta := none }

/-! ### Engine errors (`orders.py`)

Each constructor stands for one distinct `ValueError` message raised by
`AdventureOrderService`. -/

/-- Error taxonomy of the order service.  Constructors carry the numeric data
interpolated into the corresponding user-facing message. -/
inductive OrderErr
  | credentialsMissing
  | cooldownActive (remaining : ℤ)
  | partyFull
  | energyLow
  | unknownSpecies (token : String)
  | quoteNotPositive
  | marketOffline
  | priceUnavailable
  | minNotional (minQuote : ℚ)
  | sizeBelowTier
  | sizeBelowTick
  | belowMinSize (minimum : ℚ)
  | missingStopLoss
  | anchorNotPositive
  | distanceNotPositive
  | stopNotBelowForLong
  | stopNotAboveForShort
  | embedStopNotBelow
  | embedStopNotAbove
  | missingMarketMeta
  | stopCalcFailed
  | sensorOffline
  | attachFailed
  | spotUnsupported
  | unsupportedRoute (route : String)
  | exchangeFailure (context : String)
deriving DecidableEq

/-! ### Pure engine steps (`orders.py`) -/

/-- `AdventureOrderService._requires_stop_loss`: required for every opening
(CATCH) action, and for RELEASE on the perpetual route. -/
def requiresStopLoss (order : EncounterOrder) (prep : ExchangePreparation) : Bool :=
  if order.action = .CATCH then true
  else if order.action = .RELEASE ∧ prep.route = "perp" then true
  else false

/-- Tick selection of `_validate_stop_loss`: profile pip precision first,
then the contract metadata price tick, then the default `0.1`. -/
def validationTick (prep : ExchangePreparation) : ℚ :=
  let precision : Int :=
    if prep.route = "perp" ∧ prep.profile.perp_pip_precision.isSome then
      prep.profile.perp_pip_precision.getD 0
    else prep.profile.pip_precision
  let tick0 : Option ℚ :=
    if 0 ≤ precision then some ((10:ℚ) ^ (-precision)) else none
  let tick1 : Option ℚ :=
    if tick0.isNone ∨ tick0.getD 0 ≤ 0 then
      match prep.contract_meta with
      | some m => if m.price_tick ≠ 0 then some m.price_tick else tick0
      | none => tick0
    else tick0
  if tick1.isNone ∨ tick1.getD 0 ≤ 0 then 1/10 else tick1.getD 0

/-- `AdventureOrderService._validate_stop_loss`.  The inner
`Decimal.quantize(tick, ROUND_DOWN)` is modelled by `quantize_down` (flooring
to multiples of the tick), which agrees with the source for every tick the
selection logic produces on its profile and default paths (powers of ten). -/
def validateStopLoss (order : EncounterOrder) (prep : ExchangePreparation) :
    Except OrderErr Unit :=
  if ¬ requiresStopLoss order prep then .ok ()
  else
    match order.stop_loss_mode, order.stop_loss_value with
    | none, _ => .error .missingStopLoss
    | _, none => .error .missingStopLoss
    | some mode, some v =>
      if mode = .PRICE ∧ v ≤ 0 then .error .anchorNotPositive
      else if mode = .PERCENT ∧ v ≤ 0 then .error .distanceNotPositive
      else
        match mode, order.order_style, order.limit_price with
        | .PRICE, .LIMIT, some lp =>
          let tick := validationTick prep
          let comparisonStop := quantize_down v tick
          let comparisonLimit := quantize_down lp tick
          if (prep.direction = "long" ∨ prep.direction = "spot_long") ∧
              comparisonLimit ≤ comparisonStop then
            .error .stopNotBelowForLong
          else if prep.direction = "short" ∧ comparisonStop ≤ comparisonLimit then
            .error .stopNotAboveForShort
          else .ok ()
        | _, _, _ => .ok ()

/-- `AdventureOrderService._derive_size_precision`. -/
def deriveSizePrecision (profile : SpeciesProfile) (route : String) : Int :=
  match route, profile.perp_size_precision with
  | "perp", some p => p
  | _, _ => profile.size_precision

/-- `AdventureOrderService._round_down`: floor to the given number of decimal
places (the final float/format round-trip of the source is the identity in
exact arithmetic). -/
def roundDown (value : ℚ) (precision : Int) : ℚ :=
  let decimals : Int := max 0 precision
  let factor : ℚ := (10:ℚ) ^ decimals
  (⌊value * factor⌋ : ℚ) / factor

/-- `AdventureOrderService._minimum_quantity`: `10^-decimals` for the route's
size precision. -/
def minimumQuantity (profile : SpeciesProfile) (route : String) : ℚ :=
  (10:ℚ) ^ (-(max 0 (deriveSizePrecision profile route)))

/-- `AdventureOrderService._compute_size_from_quote`, with the resolved mark
price supplied as `mark` (its fetch is handled by the caller). -/
def computeSizeFromQuote (quote_hp : ℚ) (profile : SpeciesProfile)
    (route : String) (effectiveLevel : Int) (mark : ℚ) : Except OrderErr ℚ :=
  if quote_hp ≤ 0 then .error .quoteNotPositive
  else
    let notional := quote_hp * (((max 1 effectiveLevel : Int) : ℚ))
    if mark ≤ 0 then .error .marketOffline
    else
      let min_qty := minimumQuantity profile route
      let min_notional := mark * min_qty
      if notional < min_notional then .error (.minNotional min_notional)
      else
        let raw_qty := notional / mark
        let qty := roundDown raw_qty (deriveSizePrecision profile route)
        if qty < min_qty then .error (.minNotional min_notional)
        else if qty ≤ 0 then .error .sizeBelowTier
        else .ok qty

/-- `AdventureOrderService._resolve_effective_level`. -/
def resolveEffectiveLevel (order : EncounterOrder) : Int :=
  max 1 ((order.lv).getD order.level)

/-- `AdventureOrderService._coerce_contract_meta_precision`: overwrite the
contract metadata ticks and scales with the profile's advertised precisions
when those are non-negative integers. -/
def coerceContractMetaPrecision (meta : ContractMeta) (profile : SpeciesProfile) :
    ContractMeta :=
  let pricePrecision := (profile.perp_pip_precision).getD profile.pip_precision
  let sizePrecision := (profile.perp_size_precision).getD profile.size_precision
  let m1 :=
    if 0 ≤ pricePrecision then
      { meta with price_tick := (10:ℚ) ^ (-pricePrecision),
                  price_scale := pricePrecision }
    else meta
  if 0 ≤ sizePrecision then
    { m1 with size_tick := (10:ℚ) ^ (-sizePrecision), size_scale := sizePrecision }
  else m1

/-- `_quantize_with_profile_precision` inside `_apply_contract_meta`. -/
def quantizeWithProfilePrecision (prep : ExchangePreparation)
    (meta : ContractMeta) (value : ℚ) : ℚ :=
  let precision : Int :=
    if prep.route = "perp" ∧ prep.profile.perp_pip_precision.isSome then
      prep.profile.perp_pip_precision.getD 0
    else prep.profile.pip_precision
  if 0 ≤ precision then quantize_down value ((10:ℚ) ^ (-precision))
  else meta.quantize_price value

/-- Result of `_apply_contract_meta`: the (possibly quantized) order and the
preparation with its payload and contract metadata updated in place. -/
structure AppliedMeta where
  order : EncounterOrder
  prep : ExchangePreparation
deriving DecidableEq

/-- `AdventureOrderService._apply_contract_meta`. -/
def applyContractMeta (order : EncounterOrder) (prep : ExchangePreparation)
    (meta0 : ContractMeta) : Except OrderErr AppliedMeta :=
  if prep.route ≠ "perp" then .ok ⟨order, prep⟩
  else
    let meta := coerceContractMetaPrecision meta0 prep.profile
    let prep1 := { prep with contract_meta := some meta }
    let quant_size := meta.quantize_size order.pokeball_strength
    let order1 :=
      if quant_size = order.pokeball_strength then order
      else { order with pokeball_strength := quant_size }
    if quant_size ≤ 0 then .error .sizeBelowTick
    else if (match meta.min_size with
             | some m => decide (m ≠ 0 ∧ quant_size < m)
             | none => false) then
      .error (.belowMinSize ((meta.min_size).getD 0))
    else
      let prep2 :=
        { prep1 with payload := pset prep1.payload "size" (.fnum quant_size meta.size_scale) }
      let step2 : EncounterOrder × ExchangePreparation :=
        match order1.order_style, order1.limit_price with
        | .LIMIT, some lp =>
          let qp := quantizeWithProfilePrecision prep meta lp
          ({ order1 with limit_price := some qp },
           { prep2 with payload := pset prep2.payload "price" (formatPrice prep.profile prep.route qp) })
        | _, _ => (order1, prep2)
      let order2 := step2.1
      let prep3 := step2.2
      let order3 :=
        match order2.stop_loss_mode, order2.stop_loss_value with
        | some .PRICE, some sv =>
          { order2 with stop_loss_value := some (quantizeWithProfilePrecision prep meta sv) }
        | _, _ => order2
      .ok ⟨order3, prep3⟩

/-! ### Position-mode finishing (`_apply_position_mode`) -/

/-- A payload being rebuilt as a Python dict that may hold `None` values
(keys with `None` are dropped when the dict is copied back into the order
payload). -/
abbrev OPayload := List (String × Option PVal)

/-- Dict assignment on an `OPayload`. -/
def opset (p : OPayload) (k : String) (v : Option PVal) : OPayload :=
  if p.any (fun e => e.1 = k) then
    p.map (fun e => if e.1 = k then (k, v) else e)
  else p ++ [(k, v)]

/-- Dict key-membership on an `OPayload`. -/
def ophas (p : OPayload) (k : String) : Bool :=
  p.any (fun e => e.1 = k)

/-- Copy the non-`None` entries back into a plain payload, in dict order. -/
def opFinish (p : OPayload) : Payload :=
  p.filterMap (fun e => e.2.map (fun v => (e.1, v)))

/-- Python truthiness of an optional payload value (`None` and the empty
string are falsy; formatted numbers are non-empty strings, hence truthy). -/
def pvalTruthy : Option PVal → Bool
  | none => false
  | some (.s v) => !(v == "")
  | some (.fnum _ _) => true

/-- The optional keys copied over by the one-way branch of
`_apply_position_mode`. -/
def onewayOptionalKeys : List String :=
  ["price", "presetStopLossPrice", "presetStopLossTriggerPrice",
   "presetStopLossTriggerType", "presetStopLossExecutePrice"]

/-- The optional-key copy loop body of the one-way branch: copy the key from
the original payload unless already present. -/
def onewayCopyStep (original : Payload) (c : OPayload) (k : String) : OPayload :=
  if ophas c k then c
  else
    match pget original k with
    | some v => opset c k (some v)
    | none => c

/-- The whitelist skeleton dict of the one-way branch, in source order. -/
def onewayBase (original : Payload) : OPayload :=
  [("symbol", pget original "symbol"),
   ("productType", some ((pget original "productType").getD (.s "USDT-FUTURES"))),
   ("marginMode", pget original "marginMode"),
   ("marginCoin", pget original "marginCoin"),
   ("posSide", pget original "posSide"),
   ("size", pget original "size"),
   ("orderType", pget original "orderType"),
   ("side", pget original "side"),
   ("clientOid", pget original "clientOid"),
   ("timeInForceValue", pget original "timeInForceValue"),
   ("leverage", pget original "leverage")]

/-- The skeleton after the optional-key copy loop. -/
def onewayWithOptional (original : Payload) : OPayload :=
  onewayOptionalKeys.foldl (onewayCopyStep original) (onewayBase original)

/-- The skeleton after the redundant `price` re-assignment. -/
def onewayWithPrice (original : Payload) : OPayload :=
  match pget original "price" with
  | some v => opset (onewayWithOptional original) "price" (some v)
  | none => onewayWithOptional original

/-- The `force` value derived from the original payload: the original
`force` when truthy, else `gtc` for a normal/gtc time-in-force string. -/
def onewayForceValue (original : Payload) : Option PVal :=
  let force0 := pget original "force"
  if pvalTruthy force0 then force0
  else
    match pget original "timeInForceValue" with
    | some (.s t) => some (.s (if t = "normal" ∨ t = "gtc" then "gtc" else t))
    | _ => force0

/-- The skeleton after the conditional `force` assignment. -/
def onewayWithForce (original : Payload) : OPayload :=
  if pvalTruthy (onewayForceValue original) then
    opset (onewayWithPrice original) "force" (onewayForceValue original)
  else onewayWithPrice original

/-- The one-way branch of `_apply_position_mode`: rebuild the payload from a
whitelist of fields of the original payload, add `force` derived from the
time-in-force value, and add `reduceOnly` only for RUN actions; keys whose
value is `None` are dropped from the final dict. -/
def applyPositionModeOneWay (original : Payload) (action : BattleAction) : Payload :=
  let c4 :=
    if action = .RUN then
      opset (onewayWithForce original) "reduceOnly" (some (.s "YES"))
    else onewayWithForce original
  opFinish c4

/-- `AdventureOrderService._apply_position_mode` (the per-symbol hold-side
memo `_last_perp_sides`, service bookkeeping that never feeds back into this
payload, is not modelled). -/
def applyPositionMode (prep : ExchangePreparation) (position_mode : Option String)
    (order : EncounterOrder) : ExchangePreparation :=
  if prep.route ≠ "perp" then prep
  else
    let normalized : Option String :=
      if position_mode = some "one_way" ∨ position_mode = some "hedge" then
        position_mode
      else none
    if normalized = some "one_way" then
      { prep with payload := applyPositionModeOneWay prep.payload order.action,
                  hold_side := none, position_mode := some "one_way" }
    else
      let trade_mode := normalized.getD "hedge"
      let p1 := pdrop (pdrop prep.payload "reduceOnly") "positionSide"
      let p2 :=
        match prep.hold_side with
        | some h => pset p1 "holdSide" (.s h)
        | none => p1
      let trade_side := if order.action = .RUN then "close" else "open"
      let p3 := pset p2 "tradeSide" (.s trade_side)
      { prep with payload := p3, position_mode := some trade_mode }

/-! ### Stop-loss derivation and the fine-tune decision -/

/-- `AdventureOrderService._compute_distance_stop_from_price`. -/
def computeDistanceStopFromPrice (prep : ExchangePreparation)
    (distance_value base_price : ℚ) : ℚ :=
  let ratio := distance_value / 100
  let target :=
    if prep.direction = "long" ∨ prep.direction = "spot_long" then
      base_price * (1 - ratio)
    else base_price * (1 + ratio)
  max 0 target

/-- `AdventureOrderService._derive_stop_loss_price`. -/
def deriveStopLossPrice (order : EncounterOrder) (prep : ExchangePreparation)
    (entry_price : ℚ) : Except OrderErr ℚ :=
  if ¬ requiresStopLoss order prep then .ok 0
  else
    match order.stop_loss_value with
    | none => .error .missingStopLoss
    | some v =>
      let target :=
        if order.stop_loss_mode = some StopLossMode.PRICE then v
        else
          let ratio := v / 100
          if prep.direction = "long" ∨ prep.direction = "spot_long" then
            entry_price * (1 - ratio)
          else entry_price * (1 + ratio)
      if (prep.direction = "long" ∨ prep.direction = "spot_long") ∧
          entry_price ≤ target then
        .error .stopNotBelowForLong
      else if prep.direction = "short" ∧ target ≤ entry_price then
        .error .stopNotAboveForShort
      else if target ≤ 0 then .error .anchorNotPositive
      else .ok target

/-- `PendingEscapeRope` of `orders.py` (timestamps and attempt counters,
which only feed logging, are omitted). -/
structure PendingEscapeRope where
  order : EncounterOrder
  prep : ExchangePreparation
  adventure_id : String
  client_oid : String
  stop_reference : String
  embedded : Bool := false
  sensor_price : Option ℚ
  demo_mode : Bool
deriving DecidableEq

/-- What the fine-tune task decides once a volume-weighted average fill
price is known. -/
inductive AdjustDecision
  | keep
  | replaceAt (price : ℚ)
  | abort (e : OrderErr)
deriving DecidableEq

/-- The decision step of `_adjust_escape_rope` for one found entry price:
recompute the final stop from the true entry price, and keep the provisional
protective order only when the distance between the final stop and the
*sensor price* is under one tick (`10^-pip_precision`). -/
def escapeRopeDecision (pending : PendingEscapeRope) (entry_price : ℚ) :
    AdjustDecision :=
  match deriveStopLossPrice pending.order pending.prep entry_price with
  | .error e => .abort e
  | .ok final_stop =>
    match pending.sensor_price with
    | some s =>
      let precision := pending.prep.profile.pip_precision
      let min_tick : ℚ := if 0 ≤ precision then (10:ℚ) ^ (-precision) else 0
      if |final_stop - s| < min_tick then .keep else .replaceAt final_stop
    | none => .replaceAt final_stop

/-- Outcome of the whole fine-tune task. -/
inductive FineTuneOutcome
  | adjusted (d : AdjustDecision)
  | abandoned
deriving DecidableEq

/-- The polling loop of `_adjust_escape_rope`: up to 12 fill polls; the first
poll that yields an average entry price decides, and if none does within the
attempt budget the provisional protective order is cancelled (`abandoned`).
`fills` lists the result of each successive `list_perp_fills` poll. -/
def adjustEscapeRope (pending : PendingEscapeRope) (fills : List (Option ℚ)) :
    FineTuneOutcome :=
  match ((fills.take 12).filterMap id).head? with
  | some entry => .adjusted (escapeRopeDecision pending entry)
  | none => .abandoned

/-! ### Guardrails and dispatch gate -/

/-- `AdventureOrderService._check_cooldown`; `elapsed` is the age in seconds
of the previous successful order (`none` when there has been none). -/
def checkCooldown (cooldown_seconds : ℚ) (elapsed : Option ℚ) :
    Except OrderErr Unit :=
  match elapsed with
  | none => .ok ()
  | some e =>
    if e < cooldown_seconds then
      .error (.cooldownActive (truncToward0 (cooldown_seconds - e)))
    else .ok ()

/-- `AdventureOrderService._enforce_party_limit`. -/
def enforcePartyLimit (max_party_size : Int) (order : EncounterOrder)
    (partyCount : ℕ) : Except OrderErr Unit :=
  if order.action ≠ .CATCH then .ok ()
  else if max_party_size ≠ 0 ∧ 0 < max_party_size ∧
      max_party_size ≤ (partyCount : Int) then
    .error .partyFull
  else .ok ()

/-- `AdventureOrderService._enforce_energy_guard`. -/
def enforceEnergyGuard (minimum_energy : ℚ) (order : EncounterOrder)
    (energy_present : Bool) (energy_amount : ℚ) (is_demo : Bool) :
    Except OrderErr Unit :=
  if order.action ≠ .CATCH ∨ is_demo then .ok ()
  else if ¬ energy_present then .ok ()
  else if energy_amount < minimum_energy then .error .energyLow
  else .ok ()

/-- The route gate of `AdventureOrderService._dispatch_order`: any route
other than `"perp"` is rejected before the client is called. -/
def dispatchRouteCheck (route : String) : Except OrderErr Unit :=
  if route = "perp" then .ok () else .error (.unsupportedRoute route)

/-! ### Trace model of `execute_encounter`

Every exchange adapter call that `execute_encounter` can make is recorded as
a `NetCall` event, in chronological order.  The adapter's responses are
supplied by an `Env` value; a run of the engine is a pure function from the
settings, the environment and the order to the emitted call trace and the
outcome. -/

/-- ASCII `str.upper()` (structural-recursion equivalent of
`String.toUpper`). -/
def upperString (s : String) : String := ⟨s.data.map Char.toUpper⟩

/-- `str.endswith(suffix)` (structural-recursion equivalent of
`String.endsWith`). -/
def strEndsWith (s sfx : String) : Bool := sfx.data.isSuffixOf s.data

/-- `str[:-n]` (structural-recursion equivalent of `String.dropRight`). -/
def strDropRight (s : String) (n : Nat) : String :=
  ⟨s.data.take (s.data.length - n)⟩

/-- One network call to the exchange adapter. -/
inductive NetCall
  | balances
  | positionsList
  | posModeProbe
  | contractsFetch
  | tickersFetch
  | leverageQuery
  | placeOrder
  | attachStop
  | cancelStop
  | flashClose
  | closePositions
  | cancelPlanOrders
deriving DecidableEq

/-- The engine-relevant fields of `config.Settings`. -/
structure Settings where
  tradingLocked : Bool
  hasApiCredentials : Bool
  cooldownSeconds : ℚ
  maxTeamSize : Int
  minimumEnergyReserve : ℚ
  embedSL : Bool
deriving DecidableEq

/-- Exchange/adapter environment: the responses the network calls would
produce during this run, plus the service's relevant in-memory state. -/
structure Env where
  /-- Seconds since the last successful order (`none`: no previous order). -/
  elapsedSinceLast : Option ℚ
  /-- Parsed total of `list_balances` (`none`: call failed or unparseable). -/
  balancesTotal : Option ℚ
  /-- Number of open positions returned by `list_perp_positions`. -/
  partyCount : ℕ
  /-- `get_position_mode` response. -/
  posMode : Option String
  /-- Whether the contract-metadata cache TTL is still valid. -/
  metaFresh : Bool
  /-- Contract metadata table (per symbol) after a refresh. -/
  metaLookup : String → Option ContractMeta
  /-- Whether `get_perp_contract` (leverage query) succeeds. -/
  leverQueryOk : Bool
  /-- Parsed `maxLever` of the leverage query (`none`: missing/unparseable). -/
  maxLever : Option Int
  /-- Price-feed cache quote for the base asset (no network call). -/
  feedPrice : Option ℚ
  /-- Mark price extracted from a fallback `list_perp_tickers` fetch. -/
  exchangeMark : Option ℚ
  /-- Ticker price extracted by `_fetch_sensor_price`. -/
  sensorPrice : Option ℚ
  /-- Whether `place_perp_order` succeeds. -/
  dispatchOk : Bool
  /-- Protective-order reference returned by `place_perp_stop_loss`. -/
  attachRef : Option String
  /-- Whether the flash-close path of run-away succeeds. -/
  flashCloseOk : Bool

/-- Party/energy snapshot produced by `list_party_status`. -/
structure PartySnapshot where
  partyCount : ℕ
  energyPresent : Bool
  energyAmount : ℚ
deriving DecidableEq

/-- `AdventureOrderService.list_party_status`: offline (no calls) in demo or
locked mode; otherwise a balances fetch, then — when credentials exist — a
position-mode refresh and a positions listing. -/
def listPartyStatus (s : Settings) (env : Env) (is_demo : Bool) :
    List NetCall × PartySnapshot :=
  if is_demo ∨ s.tradingLocked then ([], ⟨0, false, 0⟩)
  else
    match env.balancesTotal with
    | none => ([.balances], ⟨0, false, 0⟩)
    | some total =>
      let probe : List NetCall := if s.hasApiCredentials then [.posModeProbe] else []
      let positions : List NetCall := if s.hasApiCredentials then [.positionsList] else []
      let count := if s.hasApiCredentials then env.partyCount else 0
      ([.balances] ++ probe ++ positions, ⟨count, true, total⟩)

/-- `AdventureOrderService._resolve_mark_price`: price-feed quote first,
then a fallback exchange fetch, else `PriceUnavailable`. -/
def resolveMarkPrice (profile : SpeciesProfile) (env : Env) :
    List NetCall × Except OrderErr ℚ :=
  if profile.spot_symbol = "" then ([], .error .missingMarketMeta)
  else
    let fromFeed : Option ℚ :=
      match env.feedPrice with
      | some p => if 0 < p then some p else none
      | none => none
    match fromFeed with
    | some p => ([], .ok p)
    | none =>
      match env.exchangeMark with
      | some f =>
        if 0 < f then ([.tickersFetch], .ok f)
        else ([.tickersFetch], .error .priceUnavailable)
      | none => ([.tickersFetch], .error .priceUnavailable)

/-- `AdventureOrderService._symbol_candidates`. -/
def symbolCandidates (symbol : String) : List String :=
  let normalized := upperString symbol
  if normalized = "" then []
  else if strEndsWith normalized "_UMCBL" then
    let base := strDropRight normalized 6
    if base = "" then [normalized] else [normalized, base]
  else [normalized, normalized ++ "_UMCBL"]

/-- `ContractMetaCache.get`: a refresh (one `list_perp_contracts` call) when
the TTL has lapsed, and a second forced refresh when the symbol is still
missing afterwards.  The cache is fresh after any call.  The refreshed table
is `env.metaLookup`. -/
def cacheGet (env : Env) (fresh : Bool) (symbol : String) :
    List NetCall × (Bool × Option ContractMeta) :=
  let t1 : List NetCall := if fresh then [] else [.contractsFetch]
  let found := env.metaLookup symbol
  let t2 : List NetCall := if found.isNone then [.contractsFetch] else []
  (t1 ++ t2, (true, found))

/-- The candidate loop of `_get_contract_meta`, threading cache freshness. -/
def getContractMetaLoop (env : Env) : Bool → List String →
    List NetCall × Option ContractMeta
  | _, [] => ([], none)
  | fresh, c :: rest =>
    let r := cacheGet env fresh c
    match r.2.2 with
    | some m => (r.1, some m)
    | none =>
      let r2 := getContractMetaLoop env r.2.1 rest
      (r.1 ++ r2.1, r2.2)

/-- `PokemonTranslator.symbol_to_profile` over the roster list. -/
def symbolToProfile (profiles : List SpeciesProfile) (symbol : String) :
    Option SpeciesProfile :=
  if symbol = "" then none
  else
    profiles.find? (fun p =>
      upperString p.spot_symbol = upperString symbol ||
        (match p.perp_symbol with
         | some ps => !(ps = "") && upperString ps = upperString symbol
         | none => false))

/-- The profile-derived fallback metadata of `_get_contract_meta`, used when
every cache candidate misses. -/
def fallbackContractMeta (profiles : List SpeciesProfile)
    (candidates : List String) (symbol : Option String) : ContractMeta :=
  let fallback_symbol :=
    match candidates.head? with
    | some c => c
    | none =>
      match symbol with
      | some s => upperString s
      | none => "DEFAULT"
  match symbolToProfile profiles fallback_symbol with
  | some pr =>
    let pp := (pr.perp_pip_precision).getD pr.pip_precision
    let sp := (pr.perp_size_precision).getD pr.size_precision
    { symbol := fallback_symbol,
      price_scale := if 0 ≤ pp then pp else DEFAULT_CONTRACT_META.price_scale,
      size_scale := if 0 ≤ sp then sp else DEFAULT_CONTRACT_META.size_scale,
      price_tick := if 0 ≤ pp then (10:ℚ) ^ (-pp) else DEFAULT_CONTRACT_META.price_tick,
      size_tick := if 0 ≤ sp then (10:ℚ) ^ (-sp) else DEFAULT_CONTRACT_META.size_tick,
      min_size := none }
  | none => { DEFAULT_CONTRACT_META with symbol := fallback_symbol }

/-- `AdventureOrderService._get_contract_meta`. -/
def getContractMeta (env : Env) (profiles : List SpeciesProfile)
    (symbol : Option String) : List NetCall × ContractMeta :=
  let candidates :=
    match symbol with
    | some sy => symbolCandidates sy
    | none => []
  let r := getContractMetaLoop env env.metaFresh candidates
  match r.2 with
  | some m => (r.1, m)
  | none => (r.1, fallbackContractMeta profiles candidates symbol)

/-- `PokemonTranslator.species_to_profile`. -/
def speciesToProfile (profiles : List SpeciesProfile) (species : String) :
    Except OrderErr SpeciesProfile :=
  match profiles.find? (fun p => p.display_name = species) with
  | some p => .ok p
  | none => .error (.unknownSpecies species)

/-- `AdventureOrderService._prepare_order`: resolve the effective level and,
when a quote-currency amount is supplied, derive the size from it. -/
def prepareOrder (env : Env) (profiles : List SpeciesProfile)
    (order : EncounterOrder) : List NetCall × Except OrderErr EncounterOrder :=
  let effLevel := resolveEffectiveLevel order
  match order.quote_hp with
  | none => ([], .ok { order with level := effLevel })
  | some q =>
    match speciesToProfile profiles order.species with
    | .error e => ([], .error e)
    | .ok profile =>
      let route := if 2 ≤ effLevel ∧ hasPerpSymbol profile then "perp" else "spot"
      let mk := resolveMarkPrice profile env
      match mk.2 with
      | .error e => (mk.1, .error e)
      | .ok mark =>
        match computeSizeFromQuote q profile route effLevel mark with
        | .error e => (mk.1, .error e)
        | .ok qty =>
          (mk.1, .ok { order with level := effLevel, pokeball_strength := qty })

/-- `AdventureOrderService._resolve_position_mode`. -/
def resolvePositionMode (s : Settings) (env : Env) :
    List NetCall × Option String :=
  if ¬ s.hasApiCredentials then ([], none)
  else ([.posModeProbe], env.posMode)

/-- Result of `_clamp_leverage`. -/
structure ClampResult where
  callTrace : List NetCall
  prep : ExchangePreparation
  applied : Int

/-- `AdventureOrderService._clamp_leverage`: query the contract, clamp the
requested level by the reported maximum, and write the applied leverage into
the payload (no payload change when the query itself fails). -/
def clampLeverage (env : Env) (prep : ExchangePreparation) (requested : Int) :
    ClampResult :=
  match prep.profile.perp_symbol with
  | none => ⟨[], prep, requested⟩
  | some sym =>
    if sym = "" then ⟨[], prep, requested⟩
    else if ¬ env.leverQueryOk then ⟨[.leverageQuery], prep, requested⟩
    else
      let maxL := (env.maxLever).getD requested
      let applied := min requested maxL
      ⟨[.leverageQuery],
       { prep with payload := pset prep.payload "leverage" (.s (toString applied)) },
       applied⟩

/-- `AdventureOrderService._embed_stop_loss`: compute the stop target,
quantize it, nudge it to the loss-making side of the entry reference when
needed, and write the four preset fields onto the main payload.  Returns the
preparation with the updated payload and the formatted stop (which the
source returns as the stop-loss reference string). -/
def embedStopLoss (env : Env) (profiles : List SpeciesProfile)
    (order : EncounterOrder) (prep : ExchangePreparation) :
    List NetCall × Except OrderErr (ExchangePreparation × PVal) :=
  let metaR : List NetCall × ContractMeta :=
    match prep.contract_meta with
    | some m => ([], m)
    | none => getContractMeta env profiles prep.profile.perp_symbol
  let meta := metaR.2
  match order.stop_loss_mode, order.stop_loss_value with
  | some mode, some v =>
    let tr : List NetCall × Except OrderErr (ℚ × Option ℚ) :=
      if mode = .PRICE then
        let entry_check : Option ℚ :=
          match order.order_style, order.limit_price with
          | .LIMIT, some lp => some lp
          | _, _ => none
        ([], .ok (v, entry_check))
      else
        match order.order_style, order.limit_price with
        | .LIMIT, some lp =>
          ([], .ok (computeDistanceStopFromPrice prep v lp, some lp))
        | _, _ =>
          match env.sensorPrice with
          | none => ([.tickersFetch], .error .sensorOffline)
          | some rp =>
            ([.tickersFetch], .ok (computeDistanceStopFromPrice prep v rp, some rp))
    match tr.2 with
    | .error e => (metaR.1 ++ tr.1, .error e)
    | .ok (target, entry_check) =>
      if target ≤ 0 then (metaR.1 ++ tr.1, .error .stopCalcFailed)
      else
        let quant0 := meta.quantize_price target
        let tick := meta.price_tick
        let corrected : Except OrderErr ℚ :=
          match entry_check with
          | none => .ok quant0
          | some ec =>
            if (prep.direction = "long" ∨ prep.direction = "spot_long") ∧
                ec ≤ quant0 then
              let q2 := meta.quantize_price (max (ec - tick) 0)
              if q2 ≤ 0 ∨ ec ≤ q2 then .error .embedStopNotBelow else .ok q2
            else if prep.direction = "short" ∧ quant0 ≤ ec then
              let q2 := meta.quantize_price (ec + tick)
              if q2 ≤ ec then .error .embedStopNotAbove else .ok q2
            else .ok quant0
        match corrected with
        | .error e => (metaR.1 ++ tr.1, .error e)
        | .ok qp =>
          let formatted := formatPrice prep.profile prep.route qp
          let pl :=
            pset (pset (pset (pset prep.payload
              "presetStopLossPrice" formatted)
              "presetStopLossTriggerPrice" formatted)
              "presetStopLossTriggerType" (.s "mark_price"))
              "presetStopLossExecutePrice" formatted
          (metaR.1 ++ tr.1, .ok ({ prep with payload := pl }, formatted))
  | _, _ => (metaR.1, .error .missingStopLoss)

/-- `AdventureOrderService._attach_stop_loss`: a separate protective-order
network call (`place_perp_stop_loss`), rejected outright on the spot
route. -/
def attachStopLoss (env : Env) (profiles : List SpeciesProfile)
    (prep : ExchangePreparation) (_stop_price : ℚ) :
    List NetCall × Except OrderErr String :=
  if prep.route = "spot" then ([], .error .spotUnsupported)
  else
    let metaR : List NetCall × ContractMeta :=
      match prep.contract_meta with
      | some m => ([], m)
      | none => getContractMeta env profiles prep.profile.perp_symbol
    let ev := metaR.1 ++ [.attachStop]
    match env.attachRef with
    | some r => (ev, .ok r)
    | none => (ev, .error .attachFailed)

/-- State carried from the pre-dispatch pipeline to dispatch. -/
structure PreState where
  order : EncounterOrder
  prep : ExchangePreparation
  leverageApplied : Int
  embedded : Bool
  embedReference : Option PVal
  isDemo : Bool

/-- Intermediate state after leverage clamping, before stop-loss
validation. -/
structure PreContext where
  order2 : EncounterOrder
  prep3 : ExchangePreparation
  applied : Int

/-- Sequencing of trace-producing fallible steps: on error the trace so far
is kept and the continuation is skipped; on success the traces append. -/
def stepBind {α β : Type} (x : List NetCall × Except OrderErr α)
    (f : α → List NetCall × Except OrderErr β) :
    List NetCall × Except OrderErr β :=
  match x.2 with
  | .error e => (x.1, .error e)
  | .ok a => (x.1 ++ (f a).1, (f a).2)

/-- The guardrail block of `execute_encounter`: party snapshot, party-size
cap, and energy reserve check. -/
def guardStage (s : Settings) (env : Env) (order : EncounterOrder) :
    List NetCall × Except OrderErr Unit :=
  let ps := listPartyStatus s env order.demo_mode
  (ps.1,
    match enforcePartyLimit s.maxTeamSize order ps.2.partyCount with
    | .error e => .error e
    | .ok _ =>
      enforceEnergyGuard s.minimumEnergyReserve order ps.2.energyPresent
        ps.2.energyAmount order.demo_mode)

/-- Translation plus contract-metadata application: resolve the profile,
translate, fetch the contract metadata for the perpetual symbol, and apply
it to the order and payload. -/
def translateMetaStage (env : Env) (profiles : List SpeciesProfile)
    (oid mm : String) (order1 : EncounterOrder) :
    List NetCall × Except OrderErr AppliedMeta :=
  match speciesToProfile profiles order1.species with
  | .error e => ([], .error e)
  | .ok profile =>
    let prep0 := toExchangePayload profile oid mm order1
    let metaSymbol : Option String :=
      if prep0.route = "perp" then prep0.profile.perp_symbol else none
    let mr := getContractMeta env profiles metaSymbol
    (mr.1, applyContractMeta order1 prep0 mr.2)

/-- Position-mode resolution and finishing plus leverage clamping. -/
def finishStage (s : Settings) (env : Env) (am : AppliedMeta) :
    List NetCall × Except OrderErr PreContext :=
  let pm := if am.prep.route = "perp" then resolvePositionMode s env else ([], none)
  let prep2 := applyPositionMode am.prep pm.2 am.order
  let lv :=
    if prep2.route = "perp" then clampLeverage env prep2 am.order.level
    else ⟨[], prep2, 1⟩
  (pm.1 ++ lv.callTrace, .ok ⟨am.order, lv.prep, lv.applied⟩)

/-- The optional pre-dispatch stop-loss embedding of `execute_encounter`. -/
def embedStage (s : Settings) (env : Env) (profiles : List SpeciesProfile)
    (order : EncounterOrder) (ctx : PreContext) :
    List NetCall × Except OrderErr PreState :=
  let requires := requiresStopLoss ctx.order2 ctx.prep3
  let embedAllowed := ctx.prep3.route = "perp" ∧ s.embedSL = true ∧
      ctx.order2.stop_loss_mode.isSome = true ∧
      ctx.order2.stop_loss_value.isSome = true
  if requires = true ∧ embedAllowed then
    let er := embedStopLoss env profiles ctx.order2 ctx.prep3
    match er.2 with
    | .error e => (er.1, .error e)
    | .ok pr2 =>
      (er.1, .ok ⟨ctx.order2, pr2.1, ctx.applied, true, some pr2.2, order.demo_mode⟩)
  else ([], .ok ⟨ctx.order2, ctx.prep3, ctx.applied, false, none, order.demo_mode⟩)

/-- The pre-dispatch pipeline of `execute_encounter` (everything between the
run-away/credential gates and the `_dispatch_order` call), in source order:
cooldown, party snapshot and guardrails, order preparation, translation and
contract-metadata application, position-mode finishing and leverage
clamping, stop-loss validation, and optional stop-loss embedding. -/
def preDispatch (s : Settings) (env : Env) (profiles : List SpeciesProfile)
    (oid mm : String) (order : EncounterOrder) :
    List NetCall × Except OrderErr PreState :=
  stepBind ([], checkCooldown s.cooldownSeconds env.elapsedSinceLast) (fun _ =>
    stepBind (guardStage s env order) (fun _ =>
      stepBind (prepareOrder env profiles order) (fun order1 =>
        stepBind (translateMetaStage env profiles oid mm order1) (fun am =>
          stepBind (finishStage s env am) (fun ctx =>
            stepBind ([], validateStopLoss ctx.order2 ctx.prep3) (fun _ =>
              embedStage s env profiles order ctx))))))

/-- Observable outcome of a completed encounter: the receipt-relevant data
plus the payload that was sent to the exchange. -/
structure EncounterOutcome where
  route : String
  direction : String
  payloadSent : Payload
  leverageApplied : Int
  embedded : Bool
  stopLossReference : Option PVal
  fineTuneScheduled : Bool
deriving DecidableEq

/-- Dispatch and the post-dispatch stop-loss handling of
`execute_encounter`: the route gate of `_dispatch_order`, the order
placement, and — for a required, non-embedded stop-loss — the separate
protective-order attachment (with a sensor fetch and fine-tune scheduling in
percent mode). -/
def postDispatch (env : Env) (profiles : List SpeciesProfile) (st : PreState) :
    List NetCall × Except OrderErr EncounterOutcome :=
  if st.prep.route ≠ "perp" then ([], .error (.unsupportedRoute st.prep.route))
  else if ¬ env.dispatchOk then
    ([.placeOrder], .error (.exchangeFailure "place order"))
  else
    let requires := requiresStopLoss st.order st.prep
    let base : EncounterOutcome :=
      ⟨st.prep.route, st.prep.direction, st.prep.payload, st.leverageApplied,
       st.embedded, st.embedReference, false⟩
    if requires = true ∧ st.embedded = false then
      match st.order.stop_loss_mode, st.order.stop_loss_value with
      | some .PRICE, some v =>
        let ar := attachStopLoss env profiles st.prep v
        (match ar.2 with
         | .error e => ([.placeOrder] ++ ar.1, .error e)
         | .ok r =>
           ([.placeOrder] ++ ar.1,
            .ok { base with stopLossReference := some (.s r) }))
      | some .PERCENT, some v =>
        (match env.sensorPrice with
         | none => ([.placeOrder, .tickersFetch], .error .sensorOffline)
         | some sp =>
           let provisional := computeDistanceStopFromPrice st.prep v sp
           let ar := attachStopLoss env profiles st.prep provisional
           (match ar.2 with
            | .error e => ([.placeOrder, .tickersFetch] ++ ar.1, .error e)
            | .ok r =>
              ([.placeOrder, .tickersFetch] ++ ar.1,
               .ok { base with
                       stopLossReference := some (PVal.s r),
                       fineTuneScheduled := true })))
      | _, _ => ([.placeOrder], .ok base)
    else ([.placeOrder], .ok base)

/-- `AdventureOrderService._execute_runaway` (close everything for the
species); modelled at call-trace granularity with no pending fine-tune
tasks outstanding. -/
def executeRunaway (s : Settings) (env : Env) (profiles : List SpeciesProfile)
    (order : EncounterOrder) : List NetCall × Except OrderErr EncounterOutcome :=
  match speciesToProfile profiles order.species with
  | .error e => ([], .error e)
  | .ok profile =>
    let closeTrace : List NetCall :=
      if hasPerpSymbol profile then
        (if ¬ s.tradingLocked ∧ s.hasApiCredentials then [.posModeProbe] else [])
          ++ [.flashClose]
          ++ (if env.flashCloseOk then [] else [.closePositions])
          ++ [.cancelPlanOrders]
      else []
    let ps1 := listPartyStatus s env order.demo_mode
    let ps2 := listPartyStatus s env order.demo_mode
    (closeTrace ++ ps1.1 ++ ps2.1,
     .ok ⟨"run", "none", [], order.level, false, none, false⟩)

/-- `AdventureOrderService.execute_encounter` as a pure trace-producing
function: the credential gate, the run-away branch, then the pre-dispatch
pipeline followed by dispatch and stop-loss attachment. -/
def executeEncounter (s : Settings) (env : Env) (profiles : List SpeciesProfile)
    (oid : String) (margin_mode : String) (order : EncounterOrder) :
    List NetCall × Except OrderErr EncounterOutcome :=
  if s.tradingLocked = true ∧ order.action ≠ .RUN then
    ([], .error .credentialsMissing)
  else if order.action = .RUN then executeRunaway s env profiles order
  else
    let pd := preDispatch s env profiles oid margin_mode order
    match pd.2 with
    | .error e => (pd.1, .error e)
    | .ok st =>
      let po := postDispatch env profiles st
      (pd.1 ++ po.1, po.2)


/-! ### Payload dictionary lemmas -/

theorem phas_pset_self (p : Payload) (k : String) (v : PVal) :
    phas (pset p k v) k = true := by
  unfold phas pset
  split
  · rename_i h
    simp only [List.any_eq_true, decide_eq_true_eq] at h ⊢
    obtain ⟨e, he, hek⟩ := h
    exact ⟨(k, v), List.mem_map.mpr ⟨e, he, by simp [hek]⟩, rfl⟩
  · simp

theorem phas_pset_of (p : Payload) (k k' : String) (v : PVal)
    (h : phas p k' = true) : phas (pset p k v) k' = true := by
  unfold phas pset
  unfold phas at h
  simp only [List.any_eq_true, decide_eq_true_eq] at h ⊢
  obtain ⟨e, he, hek⟩ := h
  split
  · refine ⟨if e.1 = k then (k, v) else e, List.mem_map.mpr ⟨e, he, rfl⟩, ?_⟩
    split
    · rename_i hk; simp [← hek, hk]
    · exact hek
  · exact ⟨e, List.mem_append.mpr (Or.inl he), hek⟩

theorem ophas_opset (p : OPayload) (k : String) (v : Option PVal) (k' : String)
    (h : ophas (opset p k v) k' = true) : ophas p k' = true ∨ k' = k := by
  unfold ophas opset at h
  unfold ophas
  simp only [List.any_eq_true, decide_eq_true_eq] at h ⊢
  split at h
  · obtain ⟨e, he, hek⟩ := h
    obtain ⟨e0, he0, heq⟩ := List.mem_map.mp he
    by_cases h0 : e0.1 = k
    · right; rw [← hek, ← heq]; simp [h0]
    · left
      refine ⟨e0, he0, ?_⟩
      rw [← hek, ← heq]; simp [h0]
  · obtain ⟨e, he, hek⟩ := h
    rcases List.mem_append.mp he with h1 | h1
    · exact Or.inl ⟨e, h1, hek⟩
    · right
      rw [List.mem_singleton] at h1
      rw [← hek, h1]

theorem opset_preserve (p : OPayload) (k : String) (v : Option PVal)
    (e : String × Option PVal) (he : e ∈ p) (hne : ¬ e.1 = k) :
    e ∈ opset p k v := by
  unfold opset
  split
  · exact List.mem_map.mpr ⟨e, he, by simp [hne]⟩
  · exact List.mem_append.mpr (Or.inl he)

theorem phas_opFinish (p : OPayload) (k : String)
    (h : phas (opFinish p) k = true) : ophas p k = true := by
  unfold phas opFinish at h
  unfold ophas
  simp only [List.any_eq_true, decide_eq_true_eq] at h ⊢
  obtain ⟨e, he, hek⟩ := h
  obtain ⟨e0, he0, heq⟩ := List.mem_filterMap.mp he
  refine ⟨e0, he0, ?_⟩
  match e0, heq with
  | (k0, some v0), heq =>
    simp only [Option.map_some'] at heq
    have heq2 : (k0, v0) = e := Option.some.inj heq
    rw [← heq2] at hek
    simpa using hek

theorem phas_opFinish_of_mem (p : OPayload) (k : String) (v : PVal)
    (h : (k, some v) ∈ p) : phas (opFinish p) k = true := by
  unfold phas opFinish
  simp only [List.any_eq_true, decide_eq_true_eq]
  exact ⟨(k, v), List.mem_filterMap.mpr ⟨(k, some v), h, rfl⟩, rfl⟩

theorem ophas_onewayFold (orig : Payload) (ks : List String) (c : OPayload)
    (k : String) (h : ophas (ks.foldl (onewayCopyStep orig) c) k = true) :
    ophas c k = true ∨ k ∈ ks := by
  induction ks generalizing c with
  | nil => exact Or.inl h
  | cons k2 ks ih =>
    simp only [List.foldl_cons] at h
    rcases ih _ h with h1 | h1
    · unfold onewayCopyStep at h1
      by_cases hc : ophas c k2 = true
      · rw [if_pos hc] at h1
        exact Or.inl h1
      · rw [if_neg hc] at h1
        rcases hmatch : pget orig k2 with _ | v
        · rw [hmatch] at h1
          exact Or.inl h1
        · rw [hmatch] at h1
          rcases ophas_opset _ _ _ _ h1 with h2 | h2
          · exact Or.inl h2
          · right; simp [h2]
    · right; simp [h1]

theorem onewayFold_preserve (orig : Payload) (ks : List String) (c : OPayload)
    (e : String × Option PVal) (he : e ∈ c) (hk : e.1 ∉ ks) :
    e ∈ ks.foldl (onewayCopyStep orig) c := by
  induction ks generalizing c with
  | nil => exact he
  | cons k2 ks ih =>
    simp only [List.foldl_cons]
    have hne : ¬ e.1 = k2 := by
      intro hh; exact hk (by simp [hh])
    have hk2 : e.1 ∉ ks := by
      intro hh; exact hk (by simp [hh])
    refine ih _ ?_ hk2
    unfold onewayCopyStep
    split
    · exact he
    · rcases pget orig k2 with _ | v
      · exact he
      · exact opset_preserve _ _ _ _ he hne

deriving instance DecidableEq for Except

/-! ### Sample data for concrete scenarios -/

/-- The Dragonite (BTC) profile of `default_translator`. -/
def sampleProfile : SpeciesProfile :=
  { display_name := "Dragonite", spot_symbol := "BTC", perp_symbol := some "BTC",
    pip_precision := 1, size_precision := 4, perp_pip_precision := some 1,
    perp_size_precision := some 3, max_leverage := 50 }

/-- A species with no perpetual market (spot-only). -/
def spotOnlyProfile : SpeciesProfile :=
  { display_name := "Togepi", spot_symbol := "TOG", perp_symbol := none,
    pip_precision := 2, size_precision := 4, perp_pip_precision := none,
    perp_size_precision := none, max_leverage := 1 }

/-- Contract metadata for the BTC perpetual. -/
def sampleMeta : ContractMeta :=
  { symbol := "BTC", price_scale := 1, size_scale := 3, price_tick := 1/10,
    size_tick := 1/1000, min_size := none }

/-- Reference settings: live trading, 300 s cooldown, party cap 6,
embedding disabled. -/
def sampleSettings : Settings :=
  { tradingLocked := false, hasApiCredentials := true, cooldownSeconds := 300,
    maxTeamSize := 6, minimumEnergyReserve := 0, embedSL := false }

/-- A healthy exchange environment: mark price 100, all calls succeed. -/
def sampleEnv : Env :=
  { elapsedSinceLast := none, balancesTotal := some 1000, partyCount := 0,
    posMode := some "hedge", metaFresh := false,
    metaLookup := fun sy => if sy = "BTC" then some sampleMeta else none,
    leverQueryOk := true, maxLever := some 50, feedPrice := some 100,
    exchangeMark := none, sensorPrice := some 100, dispatchOk := true,
    attachRef := some "tpsl-1", flashCloseOk := true }

/-- The healthy environment 10 s after a successful order. -/
def envCooldown : Env := { sampleEnv with elapsedSinceLast := some 10 }

/-- The healthy environment with the party at the cap of 6. -/
def envFull : Env := { sampleEnv with partyCount := 6 }

/-- An opening (CATCH) market order at level 2 with a price-mode stop. -/
def c9CatchOrder : EncounterOrder :=
  { species := "Dragonite", action := .CATCH, order_style := .MARKET,
    pokeball_strength := 1, level := 2,
    stop_loss_mode := some .PRICE, stop_loss_value := some 90 }

/-- A reduce (RELEASE) market order at level 2 with a price-mode stop above
the market (short side). -/
def c9ReleaseOrder : EncounterOrder :=
  { c9CatchOrder with action := .RELEASE, stop_loss_value := some 110 }

/-- An opening (CATCH) market order at level 2 with no stop-loss declared. -/
def c4Order : EncounterOrder :=
  { species := "Dragonite", action := .CATCH, order_style := .MARKET,
    pokeball_strength := 1, level := 2 }

/-- An opening order on a spot-only species with a price-mode stop-loss. -/
def c6Order : EncounterOrder :=
  { species := "Togepi", action := .CATCH, order_style := .MARKET,
    pokeball_strength := 1, level := 1,
    stop_loss_mode := some .PRICE, stop_loss_value := some 90 }

deriving instance DecidableEq for PreState

/-- The pre-dispatch state actually produced for `c9CatchOrder` in the
reference environment (embedding disabled, perpetual route). -/
def c6St : PreState :=
  match (preDispatch sampleSettings sampleEnv [sampleProfile] "oid" "crossed"
      c9CatchOrder).2 with
  | .ok st => st
  | .error _ =>
    ⟨c9CatchOrder, toExchangePayload sampleProfile "oid" "crossed" c9CatchOrder,
     1, false, none, false⟩

/-! ### Claim theorems -/

/-- **C1.** For every finite non-negative value `x` and positive tick,
`quantize_price` (and `quantize_size`) returns an exact integer multiple of
the tick, never exceeds `x`, and is idempotent. -/
theorem claim_C1_quantization (m : ContractMeta) (x : ℚ)
    (hx : 0 ≤ x) (hp : 0 < m.price_tick) (hs : 0 < m.size_tick) :
    (∃ k : ℤ, m.quantize_price x = (k : ℚ) * m.price_tick) ∧
      m.quantize_price x ≤ x ∧
      m.quantize_price (m.quantize_price x) = m.quantize_price x ∧
      (∃ k : ℤ, m.quantize_size x = (k : ℚ) * m.size_tick) ∧
      m.quantize_size x ≤ x ∧
      m.quantize_size (m.quantize_size x) = m.quantize_size x := by
  refine ⟨quantize_down_dvd x m.price_tick hp hx,
    quantize_down_le x m.price_tick hp hx,
    quantize_down_idem x m.price_tick hp hx,
    quantize_down_dvd x m.size_tick hs hx,
    quantize_down_le x m.size_tick hs hx,
    quantize_down_idem x m.size_tick hs hx⟩

/-- Witness for C1 at `x = 1/4` on the default contract metadata. -/
theorem claim_C1_quantization_witness :
    (0:ℚ) ≤ 1/4 ∧ 0 < DEFAULT_CONTRACT_META.price_tick ∧
      0 < DEFAULT_CONTRACT_META.size_tick ∧
      ((∃ k : ℤ, DEFAULT_CONTRACT_META.quantize_price (1/4) =
          (k : ℚ) * DEFAULT_CONTRACT_META.price_tick) ∧
        DEFAULT_CONTRACT_META.quantize_price (1/4) ≤ 1/4 ∧
        DEFAULT_CONTRACT_META.quantize_price
            (DEFAULT_CONTRACT_META.quantize_price (1/4)) =
          DEFAULT_CONTRACT_META.quantize_price (1/4) ∧
        (∃ k : ℤ, DEFAULT_CONTRACT_META.quantize_size (1/4) =
          (k : ℚ) * DEFAULT_CONTRACT_META.size_tick) ∧
        DEFAULT_CONTRACT_META.quantize_size (1/4) ≤ 1/4 ∧
        DEFAULT_CONTRACT_META.quantize_size
            (DEFAULT_CONTRACT_META.quantize_size (1/4)) =
          DEFAULT_CONTRACT_META.quantize_size (1/4)) :=
  ⟨by norm_num, by norm_num [DEFAULT_CONTRACT_META], by norm_num [DEFAULT_CONTRACT_META],
    claim_C1_quantization DEFAULT_CONTRACT_META (1/4) (by norm_num)
      (by norm_num [DEFAULT_CONTRACT_META]) (by norm_num [DEFAULT_CONTRACT_META])⟩

/-- **C2.** The translated route is `"perp"` exactly when the profile has a
perpetual symbol and either a full stop-loss declaration is present (any
level, including level 1) or `level ≥ 2`; otherwise it is `"spot"`. -/
theorem claim_C2_route_forcing (profile : SpeciesProfile) (oid mm : String)
    (order : EncounterOrder) :
    (toExchangePayload profile oid mm order).route =
      if ((order.stop_loss_mode.isSome = true ∧ order.stop_loss_value.isSome = true)
            ∨ 2 ≤ order.level) ∧ hasPerpSymbol profile = true
      then "perp" else "spot" := by
  show (let has_stop_loss := order.stop_loss_mode.isSome &&
          order.stop_loss_value.isSome && hasPerpSymbol profile
        let route0 := if has_stop_loss then "perp"
          else if 2 ≤ order.level ∧ hasPerpSymbol profile then "perp" else "spot"
        let route := if route0 = "perp" ∧ ¬ hasPerpSymbol profile then "spot" else route0
        route) = _
  by_cases h1 : hasPerpSymbol profile = true <;>
    by_cases h2 : order.stop_loss_mode.isSome = true <;>
      by_cases h3 : order.stop_loss_value.isSome = true <;>
        by_cases h4 : 2 ≤ order.level <;>
          simp [h1, h2, h3, h4, Bool.and_eq_true, eq_self_iff_true]

/-- **C10.** Whenever the translator produces a spot-routed preparation,
the dispatch gate of `_dispatch_order` rejects it with an unsupported-route
error, so no spot order is ever sent to the exchange. -/
theorem claim_C10_spot_never_dispatched (profile : SpeciesProfile)
    (oid mm : String) (order : EncounterOrder)
    (h : (toExchangePayload profile oid mm order).route = "spot") :
    dispatchRouteCheck (toExchangePayload profile oid mm order).route =
      .error (.unsupportedRoute "spot") := by
  rw [h]
  simp [dispatchRouteCheck]

unseal Rat.add Rat.mul Rat.sub Rat.inv in
/-- **C9.** With a 300 s cooldown and the previous successful order 10 s
ago, an opening order fails with a cooldown error citing 290 s remaining;
with the party at the cap of 6, an opening order fails with a party-full
error while a reduce order is not rejected by the cap; both guardrail
failures happen with no order ever sent to the exchange. -/
theorem claim_C9_guardrails :
    ((executeEncounter sampleSettings envCooldown [sampleProfile] "oid"
          "crossed" c9CatchOrder).2 = .error (.cooldownActive 290) ∧
      NetCall.placeOrder ∉ (executeEncounter sampleSettings envCooldown
          [sampleProfile] "oid" "crossed" c9CatchOrder).1) ∧
    ((executeEncounter sampleSettings envFull [sampleProfile] "oid"
          "crossed" c9CatchOrder).2 = .error .partyFull ∧
      NetCall.placeOrder ∉ (executeEncounter sampleSettings envFull
          [sampleProfile] "oid" "crossed" c9CatchOrder).1) ∧
    (executeEncounter sampleSettings envFull [sampleProfile] "oid"
        "crossed" c9ReleaseOrder).2 ≠ .error .partyFull := by
  decide

/-- A market-style long order declaring a price-mode stop of 200, far above
the prevailing market price of 100: the stop is on the profit-making side,
violating the directional rule. -/
def c3Order : EncounterOrder :=
  { species := "Dragonite", action := .CATCH, order_style := .MARKET,
    pokeball_strength := 1, level := 2,
    stop_loss_mode := some .PRICE, stop_loss_value := some 200 }

unseal Rat.add Rat.mul Rat.sub Rat.inv in
/-- **C3 counterexample.** A market-style long order in price mode with its
stop-loss (200) above the market price (100) — a directional violation — is
dispatched successfully: no validation error is raised before the dispatch
call, because the directional check only runs for limit orders with a limit
price. -/
theorem claim_C3_counterexample :
    (toExchangePayload sampleProfile "oid" "crossed" c3Order).direction = "long" ∧
      c3Order.stop_loss_value = some 200 ∧
      sampleEnv.feedPrice = some 100 ∧ sampleEnv.sensorPrice = some 100 ∧
      (executeEncounter sampleSettings sampleEnv [sampleProfile] "oid"
          "crossed" c3Order).2.toOption.isSome = true ∧
      NetCall.placeOrder ∈ (executeEncounter sampleSettings sampleEnv
          [sampleProfile] "oid" "crossed" c3Order).1 := by
  decide

/-- A perpetual preparation carrying a percent-mode long order, as left
behind for the fine-tune task. -/
def c8Order : EncounterOrder :=
  { species := "Dragonite", action := .CATCH, order_style := .MARKET,
    pokeball_strength := 1, level := 2,
    stop_loss_mode := some .PERCENT, stop_loss_value := some 2 }

/-- The pending fine-tune state after the provisional protective order was
placed against sensor price 100 (provisional stop 98). -/
def c8Pending : PendingEscapeRope :=
  { order := c8Order,
    prep := toExchangePayload sampleProfile "oid" "crossed" c8Order,
    adventure_id := "adv-1", client_oid := "oid", stop_reference := "tpsl-1",
    embedded := false, sensor_price := some 100, demo_mode := false }

/-- The same pending state with sensor price 101, the spec's example. -/
def c8PendingSensor101 : PendingEscapeRope :=
  { c8Pending with sensor_price := some 101 }

unseal Rat.add Rat.mul Rat.sub Rat.inv in
/-- **C8 counterexample.** Sensor price 100, true fill price 100, 2 %
distance, tick 0.1: the provisional stop (98) and the recomputed final stop
(98) coincide, so the claimed trigger (delta between final and provisional
stop exceeding one tick) does not fire — yet the fine-tune task replaces the
protective order, because the code compares the final stop against the raw
sensor price (|98 − 100| = 2 ≥ 0.1), not against the provisional stop. -/
theorem claim_C8_counterexample :
    computeDistanceStopFromPrice c8Pending.prep 2 100 = 98 ∧
      deriveStopLossPrice c8Pending.order c8Pending.prep 100 = .ok 98 ∧
      escapeRopeDecision c8Pending 100 = .replaceAt 98 ∧
      adjustEscapeRope c8Pending [some 100] = .adjusted (.replaceAt 98) := by
  decide

/-- Witness for C10: a level-1 order on a spot-only species translates to
the spot route and is rejected by the dispatch gate. -/
theorem claim_C10_spot_never_dispatched_witness :
    (toExchangePayload spotOnlyProfile "oid-1" "crossed"
        { species := "Togepi", pokeball_strength := 1 }).route = "spot" ∧
      dispatchRouteCheck
          (toExchangePayload spotOnlyProfile "oid-1" "crossed"
            { species := "Togepi", pokeball_strength := 1 }).route =
        .error (.unsupportedRoute "spot") :=
  ⟨by decide,
    claim_C10_spot_never_dispatched spotOnlyProfile "oid-1" "crossed"
      { species := "Togepi", pokeball_strength := 1 } (by decide)⟩

def onewayAllKeys : List String :=
  ["symbol", "productType", "marginMode", "marginCoin", "posSide",
   "size", "orderType", "side", "clientOid", "timeInForceValue",
   "leverage"] ++ onewayOptionalKeys ++ ["price", "force", "reduceOnly"]

theorem keys_onewayBase (orig : Payload) (k : String)
    (h : ophas (onewayBase orig) k = true) : k ∈ onewayAllKeys := by
  unfold ophas onewayBase at h
  simp only [List.any_eq_true, decide_eq_true_eq] at h
  obtain ⟨e, he, hek⟩ := h
  subst hek
  simp only [List.mem_cons, List.not_mem_nil, or_false] at he
  rcases he with h1|h1|h1|h1|h1|h1|h1|h1|h1|h1|h1 <;>
    (rw [h1]; simp [onewayAllKeys, onewayOptionalKeys])

theorem keys_onewayWithOptional (orig : Payload) (k : String)
    (h : ophas (onewayWithOptional orig) k = true) : k ∈ onewayAllKeys := by
  unfold onewayWithOptional at h
  rcases ophas_onewayFold _ _ _ _ h with h1 | h1
  · exact keys_onewayBase _ _ h1
  · simp [onewayAllKeys, h1]

theorem keys_onewayWithPrice (orig : Payload) (k : String)
    (h : ophas (onewayWithPrice orig) k = true) : k ∈ onewayAllKeys := by
  unfold onewayWithPrice at h
  split at h
  · rcases ophas_opset _ _ _ _ h with h1 | h1
    · exact keys_onewayWithOptional _ _ h1
    · simp [onewayAllKeys, h1]
  · exact keys_onewayWithOptional _ _ h

theorem keys_onewayWithForce (orig : Payload) (k : String)
    (h : ophas (onewayWithForce orig) k = true) : k ∈ onewayAllKeys := by
  unfold onewayWithForce at h
  split at h
  · rcases ophas_opset _ _ _ _ h with h1 | h1
    · exact keys_onewayWithPrice _ _ h1
    · simp [onewayAllKeys, h1]
  · exact keys_onewayWithPrice _ _ h

theorem oneWay_keys (orig : Payload) (action : BattleAction) (k : String)
    (h : phas (applyPositionModeOneWay orig action) k = true) :
    k ∈ onewayAllKeys := by
  unfold applyPositionModeOneWay at h
  replace h := phas_opFinish _ _ h
  split at h
  · rcases ophas_opset _ _ _ _ h with h1 | h1
    · exact keys_onewayWithForce _ _ h1
    · simp [onewayAllKeys, h1]
  · exact keys_onewayWithForce _ _ h

theorem oneWay_has_side (orig : Payload) (action : BattleAction) (w : PVal)
    (h : pget orig "side" = some w) :
    phas (applyPositionModeOneWay orig action) "side" = true := by
  unfold applyPositionModeOneWay
  have h0 : ("side", some w) ∈ onewayBase orig := by
    unfold onewayBase
    rw [← h]
    simp
  have h1 : ("side", some w) ∈ onewayWithOptional orig :=
    onewayFold_preserve _ _ _ _ h0 (by simp [onewayOptionalKeys])
  have h2 : ("side", some w) ∈ onewayWithPrice orig := by
    unfold onewayWithPrice
    split
    · exact opset_preserve _ _ _ _ h1 (by simp)
    · exact h1
  have h3 : ("side", some w) ∈ onewayWithForce orig := by
    unfold onewayWithForce
    split
    · exact opset_preserve _ _ _ _ h2 (by simp)
    · exact h2
  have h4 : ("side", some w) ∈
      (if action = BattleAction.RUN then
        opset (onewayWithForce orig) "reduceOnly" (some (.s "YES"))
      else onewayWithForce orig) := by
    split
    · exact opset_preserve _ _ _ _ h3 (by simp)
    · exact h3
  exact phas_opFinish_of_mem _ _ _ h4

theorem oneWay_key_false (orig : Payload) (action : BattleAction) (k : String)
    (hk : k ∉ onewayAllKeys) :
    phas (applyPositionModeOneWay orig action) k = false := by
  cases hph : phas (applyPositionModeOneWay orig action) k
  · rfl
  · exact absurd (oneWay_keys _ _ _ hph) hk

/-- **C7 amended.** For a perpetual preparation finished under position mode
`"one_way"`, the payload contains neither a hold-side field nor a trade-side
flag (both are absent), while the explicit `side` field is retained and the
preparation's hold side is cleared; under `"hedge"`, the payload retains the
hold-side field *and* carries the `open`/`close` trade-side flag. -/
theorem claim_C7_amended (prep : ExchangePreparation) (order : EncounterOrder)
    (w : PVal) (hs : String)
    (hr : prep.route = "perp")
    (hsid : pget prep.payload "side" = some w)
    (hhold : prep.hold_side = some hs) :
    (phas (applyPositionMode prep (some "one_way") order).payload "holdSide" = false ∧
      phas (applyPositionMode prep (some "one_way") order).payload "tradeSide" = false ∧
      phas (applyPositionMode prep (some "one_way") order).payload "side" = true ∧
      (applyPositionMode prep (some "one_way") order).hold_side = none) ∧
    (phas (applyPositionMode prep (some "hedge") order).payload "holdSide" = true ∧
      phas (applyPositionMode prep (some "hedge") order).payload "tradeSide" = true) := by
  have how : applyPositionMode prep (some "one_way") order =
      { prep with payload := applyPositionModeOneWay prep.payload order.action,
                  hold_side := none, position_mode := some "one_way" } := by
    simp [applyPositionMode, hr]
  have hhg : applyPositionMode prep (some "hedge") order =
      { prep with
          payload := pset
            (pset (pdrop (pdrop prep.payload "reduceOnly") "positionSide")
              "holdSide" (.s hs))
            "tradeSide" (.s (if order.action = .RUN then "close" else "open")),
          position_mode := some "hedge" } := by
    simp [applyPositionMode, hr, hhold]
  refine ⟨⟨?_, ?_, ?_, ?_⟩, ?_, ?_⟩
  · rw [how]
    exact oneWay_key_false _ _ _ (by simp [onewayAllKeys, onewayOptionalKeys])
  · rw [how]
    exact oneWay_key_false _ _ _ (by simp [onewayAllKeys, onewayOptionalKeys])
  · rw [how]
    exact oneWay_has_side _ _ _ hsid
  · rw [how]
  · rw [hhg]
    exact phas_pset_of _ _ _ _ (phas_pset_self _ _ _)
  · rw [hhg]
    exact phas_pset_self _ _ _

/-- A plain perpetual opening order with no stop-loss declaration, used for
position-mode payload-shape scenarios. -/
def c7Order : EncounterOrder :=
  { species := "Dragonite", action := .CATCH, order_style := .MARKET,
    pokeball_strength := 1, level := 2 }

/-- **C7 counterexample.** For a perpetual order finished in one-way mode the
payload carries no trade-side flag at all, while in hedge mode it does carry
one — the opposite of the claim on both sides. -/
theorem claim_C7_counterexample :
    phas (applyPositionMode (toExchangePayload sampleProfile "oid" "crossed" c7Order)
        (some "one_way") c7Order).payload "tradeSide" = false ∧
      phas (applyPositionMode (toExchangePayload sampleProfile "oid" "crossed" c7Order)
        (some "hedge") c7Order).payload "tradeSide" = true := by
  decide

/-- Witness for the amended C7 on a concrete translated perpetual order. -/
theorem claim_C7_amended_witness :
    (toExchangePayload sampleProfile "oid" "crossed" c7Order).route = "perp" ∧
      pget (toExchangePayload sampleProfile "oid" "crossed" c7Order).payload "side" =
        some (PVal.s "buy") ∧
      (toExchangePayload sampleProfile "oid" "crossed" c7Order).hold_side = some "long" ∧
      ((phas (applyPositionMode (toExchangePayload sampleProfile "oid" "crossed" c7Order)
            (some "one_way") c7Order).payload "holdSide" = false ∧
        phas (applyPositionMode (toExchangePayload sampleProfile "oid" "crossed" c7Order)
            (some "one_way") c7Order).payload "tradeSide" = false ∧
        phas (applyPositionMode (toExchangePayload sampleProfile "oid" "crossed" c7Order)
            (some "one_way") c7Order).payload "side" = true ∧
        (applyPositionMode (toExchangePayload sampleProfile "oid" "crossed" c7Order)
            (some "one_way") c7Order).hold_side = none) ∧
       (phas (applyPositionMode (toExchangePayload sampleProfile "oid" "crossed" c7Order)
            (some "hedge") c7Order).payload "holdSide" = true ∧
        phas (applyPositionMode (toExchangePayload sampleProfile "oid" "crossed" c7Order)
            (some "hedge") c7Order).payload "tradeSide" = true)) :=
  ⟨by decide, by decide, by decide,
    claim_C7_amended (toExchangePayload sampleProfile "oid" "crossed" c7Order)
      c7Order (PVal.s "buy") "long" (by decide) (by decide) (by decide)⟩

/-- A limit long order with a valid price-mode stop below the limit. -/
def c3wOrder : EncounterOrder :=
  { species := "Dragonite", action := .CATCH, order_style := .LIMIT,
    pokeball_strength := 1, limit_price := some 100, level := 2,
    stop_loss_mode := some .PRICE, stop_loss_value := some 90 }

/-- **C8 amended.** Once the fine-tune task finds an average fill price and
recomputes the final stop, it replaces the provisional protective order
exactly when the distance between the final stop and the *sensor price used
for the provisional stop* reaches one price tick (`10^-pip_precision`);
otherwise it keeps the provisional order.  (The spec's trigger — the delta
against the provisional stop price — is not what the code compares.) -/
theorem claim_C8_amended (pending : PendingEscapeRope) (entry final s : ℚ)
    (hs : pending.sensor_price = some s)
    (hd : deriveStopLossPrice pending.order pending.prep entry = .ok final)
    (hp : 0 ≤ pending.prep.profile.pip_precision) :
    (escapeRopeDecision pending entry = .replaceAt final ↔
        (10:ℚ) ^ (-pending.prep.profile.pip_precision) ≤ |final - s|) ∧
    (escapeRopeDecision pending entry = .keep ↔
        |final - s| < (10:ℚ) ^ (-pending.prep.profile.pip_precision)) := by
  unfold escapeRopeDecision
  rw [hd, hs]
  simp only [hp, if_pos]
  by_cases hlt : |final - s| < (10:ℚ) ^ (-pending.prep.profile.pip_precision)
  · simp [hlt, not_le.mpr hlt]
  · simp [hlt, not_lt.mp hlt]


unseal Rat.add Rat.mul Rat.sub Rat.inv in
/-- Witness for the amended C8 at the spec's own example: fill 100, sensor
101, 2 % distance, tick 0.1 — the task replaces the protective order at
98.00. -/
theorem claim_C8_amended_witness :
    c8PendingSensor101.sensor_price = some 101 ∧
      deriveStopLossPrice c8PendingSensor101.order c8PendingSensor101.prep 100 =
        .ok 98 ∧
      (0:Int) ≤ c8PendingSensor101.prep.profile.pip_precision ∧
      ((escapeRopeDecision c8PendingSensor101 100 = .replaceAt 98 ↔
          (10:ℚ) ^ (-c8PendingSensor101.prep.profile.pip_precision) ≤ |98 - 101|) ∧
        (escapeRopeDecision c8PendingSensor101 100 = .keep ↔
          |(98:ℚ) - 101| < (10:ℚ) ^ (-c8PendingSensor101.prep.profile.pip_precision))) :=
  ⟨by decide, by decide, by decide,
    claim_C8_amended c8PendingSensor101 100 98 101 (by decide) (by decide) (by decide)⟩

/-- **C3 amended.** For orders that require a stop-loss and declare it in
price mode, the strict directional rule (stop below the limit price for a
long, above it for a short, both quantized to the validation tick) is
enforced exactly for LIMIT orders carrying a limit price: acceptance is
equivalent to the directional inequality.  Market-style orders (or orders
without a limit price) pass stop-loss validation with no directional check
at all. -/
theorem claim_C3_amended (order : EncounterOrder) (prep : ExchangePreparation)
    (v : ℚ)
    (hreq : requiresStopLoss order prep = true)
    (hmode : order.stop_loss_mode = some .PRICE)
    (hval : order.stop_loss_value = some v) (hv : 0 < v) :
    (∀ lp, order.order_style = .LIMIT → order.limit_price = some lp →
      (validateStopLoss order prep = .ok () ↔
        ((prep.direction = "long" ∨ prep.direction = "spot_long") →
            quantize_down v (validationTick prep) <
              quantize_down lp (validationTick prep)) ∧
        (prep.direction = "short" →
            quantize_down lp (validationTick prep) <
              quantize_down v (validationTick prep)))) ∧
    ((order.order_style = .MARKET ∨ order.limit_price = none) →
      validateStopLoss order prep = .ok ()) := by
  unfold validateStopLoss
  rw [hmode, hval]
  simp only [hreq, not_true, if_neg, Bool.true_eq_false, not_false_iff]
  constructor
  · intro lp hstyle hlim
    rw [hstyle, hlim]
    rw [if_neg (by simp [not_le.mpr hv]), if_neg (by simp)]
    show (if (prep.direction = "long" ∨ prep.direction = "spot_long") ∧
          quantize_down lp (validationTick prep) ≤ quantize_down v (validationTick prep) then
        Except.error OrderErr.stopNotBelowForLong
      else if prep.direction = "short" ∧
          quantize_down v (validationTick prep) ≤ quantize_down lp (validationTick prep) then
        Except.error OrderErr.stopNotAboveForShort
      else Except.ok ()) = Except.ok () ↔ _
    split_ifs with hA hB
    · refine iff_of_false (by simp) ?_
      intro hrhs
      exact (not_lt.mpr hA.2) (hrhs.1 hA.1)
    · refine iff_of_false (by simp) ?_
      intro hrhs
      exact (not_lt.mpr hB.2) (hrhs.2 hB.1)
    · refine iff_of_true rfl ⟨?_, ?_⟩
      · intro hdir
        by_contra hc
        exact hA ⟨hdir, not_lt.mp hc⟩
      · intro hdir
        by_contra hc
        exact hB ⟨hdir, not_lt.mp hc⟩
  · intro hml
    rw [if_neg (by simp [not_le.mpr hv]), if_neg (by simp)]
    rcases hml with hm | hn
    · rw [hm]
    · rw [hn]
      cases horder : order.order_style <;> rfl

unseal Rat.add Rat.mul Rat.sub Rat.inv in
/-- Witness for the amended C3 on a concrete limit long order (limit 100,
stop 90, accepted) and the market variant of the same order. -/
theorem claim_C3_amended_witness :
    requiresStopLoss c3wOrder (toExchangePayload sampleProfile "oid" "crossed" c3wOrder) = true ∧
      c3wOrder.stop_loss_mode = some .PRICE ∧
      c3wOrder.stop_loss_value = some 90 ∧ (0:ℚ) < 90 ∧
      ((∀ lp, c3wOrder.order_style = .LIMIT → c3wOrder.limit_price = some lp →
        (validateStopLoss c3wOrder (toExchangePayload sampleProfile "oid" "crossed" c3wOrder) = .ok () ↔
          (((toExchangePayload sampleProfile "oid" "crossed" c3wOrder).direction = "long" ∨
              (toExchangePayload sampleProfile "oid" "crossed" c3wOrder).direction = "spot_long") →
              quantize_down 90 (validationTick (toExchangePayload sampleProfile "oid" "crossed" c3wOrder)) <
                quantize_down lp (validationTick (toExchangePayload sampleProfile "oid" "crossed" c3wOrder))) ∧
          ((toExchangePayload sampleProfile "oid" "crossed" c3wOrder).direction = "short" →
              quantize_down lp (validationTick (toExchangePayload sampleProfile "oid" "crossed" c3wOrder)) <
                quantize_down 90 (validationTick (toExchangePayload sampleProfile "oid" "crossed" c3wOrder))))) ∧
       ((c3wOrder.order_style = .MARKET ∨ c3wOrder.limit_price = none) →
        validateStopLoss c3wOrder (toExchangePayload sampleProfile "oid" "crossed" c3wOrder) = .ok ())) :=
  ⟨by decide, by decide, by decide, by norm_num,
    claim_C3_amended c3wOrder (toExchangePayload sampleProfile "oid" "crossed" c3wOrder)
      90 (by decide) (by decide) (by decide) (by norm_num)⟩

/-! ### Sizing lemmas (C5) -/

theorem quantize_down_int_mul (n : ℤ) (t : ℚ) (ht : 0 < t) (hn : 0 ≤ n) :
    quantize_down ((n:ℚ) * t) t = (n:ℚ) * t := by
  rw [quantize_down_mul_self _ t ht (mul_nonneg (by exact_mod_cast hn) ht.le)]
  rw [mul_div_cancel_right₀ _ (ne_of_gt ht), Int.floor_intCast]

theorem roundDown_min (x : ℚ) (p : Int) (h : (10:ℚ) ^ (-(max 0 p)) ≤ x) :
    (10:ℚ) ^ (-(max 0 p)) ≤ roundDown x p := by
  have hf : (0:ℚ) < (10:ℚ) ^ (max 0 p) := zpow_pos (by norm_num) _
  have h1 : (1:ℚ) ≤ x * (10:ℚ) ^ (max 0 p) := by
    have h2 := mul_le_mul_of_nonneg_right h hf.le
    rwa [zpow_neg, inv_mul_cancel₀ (ne_of_gt hf)] at h2
  have h2 : (1:ℤ) ≤ ⌊x * (10:ℚ) ^ (max 0 p)⌋ := by
    rw [Int.le_floor]
    exact_mod_cast h1
  show (10:ℚ) ^ (-(max 0 p)) ≤
    (⌊x * (10:ℚ) ^ (max 0 p)⌋ : ℚ) / (10:ℚ) ^ (max 0 p)
  rw [zpow_neg, inv_eq_one_div]
  gcongr
  exact_mod_cast h2

theorem roundDown_nonneg_fix (x : ℚ) (p : Int) (hx : 0 ≤ x) :
    quantize_down (roundDown x p) ((10:ℚ) ^ (-(max 0 p))) = roundDown x p := by
  have hf : (0:ℚ) < (10:ℚ) ^ (max 0 p) := zpow_pos (by norm_num) _
  have ht : (0:ℚ) < (10:ℚ) ^ (-(max 0 p)) := zpow_pos (by norm_num) _
  have hn : (0:ℤ) ≤ ⌊x * (10:ℚ) ^ (max 0 p)⌋ :=
    Int.floor_nonneg.mpr (mul_nonneg hx hf.le)
  have heq : roundDown x p =
      ((⌊x * (10:ℚ) ^ (max 0 p)⌋ : ℚ)) * (10:ℚ) ^ (-(max 0 p)) := by
    show (⌊x * (10:ℚ) ^ (max 0 p)⌋ : ℚ) / (10:ℚ) ^ (max 0 p) = _
    rw [zpow_neg, div_eq_mul_inv]
  rw [heq, quantize_down_int_mul _ _ ht hn]

theorem coerce_min_size (meta : ContractMeta) (pr : SpeciesProfile) :
    (coerceContractMetaPrecision meta pr).min_size = meta.min_size := by
  unfold coerceContractMetaPrecision
  dsimp only
  split <;> split <;> rfl

theorem applyContractMeta_ok_iff (order : EncounterOrder)
    (prep : ExchangePreparation) (meta : ContractMeta)
    (hroute : prep.route = "perp") :
    (∃ am, applyContractMeta order prep meta = .ok am) ↔
      (0 < (coerceContractMetaPrecision meta prep.profile).quantize_size
          order.pokeball_strength ∧
        ∀ m, (coerceContractMetaPrecision meta prep.profile).min_size = some m →
          m = 0 ∨ m ≤ (coerceContractMetaPrecision meta prep.profile).quantize_size
            order.pokeball_strength) := by
  unfold applyContractMeta
  rw [if_neg (by rw [hroute]; simp)]
  dsimp only
  by_cases hq : (coerceContractMetaPrecision meta prep.profile).quantize_size
      order.pokeball_strength ≤ 0
  · rw [if_pos hq]
    constructor
    · intro ⟨am, ham⟩
      exact absurd ham (by simp)
    · intro ⟨hpos, _⟩
      exact absurd hq (not_le.mpr hpos)
  · rw [if_neg hq]
    by_cases hb : (match (coerceContractMetaPrecision meta prep.profile).min_size with
        | some m => decide (m ≠ 0 ∧
            (coerceContractMetaPrecision meta prep.profile).quantize_size
              order.pokeball_strength < m)
        | none => false) = true
    · rw [if_pos hb]
      constructor
      · intro ⟨am, ham⟩
        exact absurd ham (by simp)
      · intro ⟨_, hm⟩
        rcases hmin : (coerceContractMetaPrecision meta prep.profile).min_size with _ | m
        · rw [hmin] at hb
          simp at hb
        · rw [hmin] at hb
          simp only [decide_eq_true_eq] at hb
          rcases hm m hmin with h3 | h3
          · exact (hb.1 h3).elim
          · exact ((not_lt.mpr h3) hb.2).elim
    · rw [if_neg hb]
      constructor
      · intro _
        refine ⟨not_le.mp hq, ?_⟩
        intro m hmin
        rw [hmin] at hb
        simp only [decide_eq_true_eq] at hb
        by_cases hz : m = 0
        · exact Or.inl hz
        · refine Or.inr ?_
          by_contra hc
          exact hb ⟨hz, not_le.mp hc⟩
      · intro _
        exact ⟨_, rfl⟩

/-- **C5.** Quote-currency sizing: with mark price `P`, quote amount `Q`,
level `L` and effective size decimals `d`, a ratio `Q*max(1,L)/P` under
`10^-d` fails with a minimum-notional error carrying the minimum in quote
currency (`P * 10^-d`); otherwise sizing succeeds with exactly that ratio
floored to `d` decimals, and on the perpetual route the contract-metadata
step accepts the resulting quantity precisely when it reaches the contract
declared minimum size (when one is set). -/
theorem claim_C5_sizing (Q P : ℚ) (L d : Int) (profile : SpeciesProfile)
    (route : String) (hP : 0 < P) (hQ : 0 < Q)
    (hd : d = max 0 (deriveSizePrecision profile route)) :
    (Q * ((max 1 L : Int) : ℚ) / P < (10:ℚ) ^ (-d) →
      computeSizeFromQuote Q profile route L P =
        .error (.minNotional (P * (10:ℚ) ^ (-d)))) ∧
    ((10:ℚ) ^ (-d) ≤ Q * ((max 1 L : Int) : ℚ) / P →
      computeSizeFromQuote Q profile route L P =
        .ok (roundDown (Q * ((max 1 L : Int) : ℚ) / P)
          (deriveSizePrecision profile route)) ∧
      (∀ (meta : ContractMeta) (m : ℚ) (order : EncounterOrder)
          (prep : ExchangePreparation),
        prep.route = "perp" → route = "perp" → prep.profile = profile →
        order.pokeball_strength =
          roundDown (Q * ((max 1 L : Int) : ℚ) / P)
            (deriveSizePrecision profile route) →
        meta.min_size = some m → 0 < m →
        0 ≤ deriveSizePrecision profile route →
        ((∃ am, applyContractMeta order prep meta = .ok am) ↔
          m ≤ roundDown (Q * ((max 1 L : Int) : ℚ) / P)
            (deriveSizePrecision profile route)))) := by
  have hmin : minimumQuantity profile route = (10:ℚ) ^ (-d) := by
    rw [hd]; rfl
  have hfpos : (0:ℚ) < (10:ℚ) ^ (-d) := zpow_pos (by norm_num) _
  constructor
  · intro hlt
    unfold computeSizeFromQuote
    rw [if_neg (not_le.mpr hQ), if_neg (not_le.mpr hP), hmin]
    rw [if_pos (by rw [mul_comm P]; exact (div_lt_iff₀ hP).mp hlt)]
  · intro hge
    have hqty : (10:ℚ) ^ (-d) ≤
        roundDown (Q * ((max 1 L : Int) : ℚ) / P)
          (deriveSizePrecision profile route) := by
      rw [hd]
      exact roundDown_min _ _ (by rw [← hd]; exact hge)
    have hqty0 : (0:ℚ) < roundDown (Q * ((max 1 L : Int) : ℚ) / P)
        (deriveSizePrecision profile route) := lt_of_lt_of_le hfpos hqty
    refine ⟨?_, ?_⟩
    · unfold computeSizeFromQuote
      rw [if_neg (not_le.mpr hQ), if_neg (not_le.mpr hP), hmin]
      rw [if_neg (by rw [mul_comm P]; exact not_lt.mpr ((le_div_iff₀ hP).mp hge))]
      rw [if_neg (not_lt.mpr hqty), if_neg (not_le.mpr hqty0)]
    · intro meta m order prep hprep hroute hprof hstrength hms hm hd0
      have hsp : deriveSizePrecision profile route =
          (profile.perp_size_precision).getD profile.size_precision := by
        rw [hroute]
        unfold deriveSizePrecision
        cases profile.perp_size_precision <;> rfl
      have hd0g : 0 ≤ (profile.perp_size_precision).getD profile.size_precision := by
        rw [← hsp]; exact hd0
      have hdsp : d = (profile.perp_size_precision).getD profile.size_precision := by
        rw [hd, hsp, max_eq_right (by rw [← hsp]; exact hd0)]
      have htick : (coerceContractMetaPrecision meta prep.profile).size_tick =
          (10:ℚ) ^ (-d) := by
        rw [hprof]
        unfold coerceContractMetaPrecision
        dsimp only
        rw [if_pos hd0g, hdsp]
      have hraw0 : (0:ℚ) ≤ Q * ((max 1 L : Int) : ℚ) / P := by
        apply div_nonneg _ hP.le
        apply mul_nonneg hQ.le
        have : (1:ℤ) ≤ max 1 L := le_max_left 1 L
        exact_mod_cast le_trans zero_le_one this
      have hfix : (coerceContractMetaPrecision meta prep.profile).quantize_size
          (roundDown (Q * ((max 1 L : Int) : ℚ) / P)
            (deriveSizePrecision profile route)) =
          roundDown (Q * ((max 1 L : Int) : ℚ) / P)
            (deriveSizePrecision profile route) := by
        unfold ContractMeta.quantize_size
        rw [htick, hd]
        exact roundDown_nonneg_fix _ _ hraw0
      rw [applyContractMeta_ok_iff order prep meta hprep, hstrength, hfix]
      constructor
      · intro ⟨_, hall⟩
        have hmin2 : (coerceContractMetaPrecision meta prep.profile).min_size = some m := by
          rw [coerce_min_size, hms]
        rcases hall m hmin2 with h0 | h0
        · exact absurd h0 (ne_of_gt hm)
        · exact h0
      · intro hle
        refine ⟨hqty0, ?_⟩
        intro m2 hmin2
        rw [coerce_min_size, hms] at hmin2
        have hm2 : m = m2 := Option.some.inj hmin2
        rw [← hm2]
        exact Or.inr hle


/-- Witness for C5 at `Q = 50`, `P = 100`, `L = 2`, `d = 3` on the BTC
profile. -/
theorem claim_C5_sizing_witness :
    (0:ℚ) < 100 ∧ (0:ℚ) < 50 ∧
      (3:ℤ) = max 0 (deriveSizePrecision sampleProfile "perp") ∧
      ((50 * ((max 1 2 : Int) : ℚ) / 100 < (10:ℚ) ^ (-(3:ℤ)) →
        computeSizeFromQuote 50 sampleProfile "perp" 2 100 =
          .error (.minNotional (100 * (10:ℚ) ^ (-(3:ℤ))))) ∧
      ((10:ℚ) ^ (-(3:ℤ)) ≤ 50 * ((max 1 2 : Int) : ℚ) / 100 →
        computeSizeFromQuote 50 sampleProfile "perp" 2 100 =
          .ok (roundDown (50 * ((max 1 2 : Int) : ℚ) / 100)
            (deriveSizePrecision sampleProfile "perp")) ∧
        (∀ (meta : ContractMeta) (m : ℚ) (order : EncounterOrder)
            (prep : ExchangePreparation),
          prep.route = "perp" → "perp" = "perp" → prep.profile = sampleProfile →
          order.pokeball_strength =
            roundDown (50 * ((max 1 2 : Int) : ℚ) / 100)
              (deriveSizePrecision sampleProfile "perp") →
          meta.min_size = some m → 0 < m →
          0 ≤ deriveSizePrecision sampleProfile "perp" →
          ((∃ am, applyContractMeta order prep meta = .ok am) ↔
            m ≤ roundDown (50 * ((max 1 2 : Int) : ℚ) / 100)
              (deriveSizePrecision sampleProfile "perp"))))) :=
  ⟨by norm_num, by norm_num, by decide,
    claim_C5_sizing 50 100 2 3 sampleProfile "perp" (by norm_num) (by norm_num)
      (by decide)⟩

/-! ### Call-trace lemmas -/

/-- The network calls the pre-dispatch pipeline can make. -/
def preCalls : List NetCall :=
  [.balances, .posModeProbe, .positionsList, .contractsFetch, .tickersFetch,
   .leverageQuery]

theorem listPartyStatus_calls (s : Settings) (env : Env) (d : Bool) :
    ∀ c ∈ (listPartyStatus s env d).1, c ∈ preCalls := by
  intro c hc
  unfold listPartyStatus at hc
  split at hc
  · simp at hc
  · split at hc
    · simp only [List.mem_singleton] at hc
      simp [hc, preCalls]
    · simp only [List.mem_append] at hc
      rcases hc with (hc | hc) | hc <;> [skip; split at hc; split at hc] <;>
        simp_all [preCalls]

theorem resolveMarkPrice_calls (profile : SpeciesProfile) (env : Env) :
    ∀ c ∈ (resolveMarkPrice profile env).1, c ∈ preCalls := by
  intro c hc
  unfold resolveMarkPrice at hc
  dsimp only at hc
  repeat' split at hc
  all_goals simp_all [preCalls]

theorem cacheGet_calls (env : Env) (fresh : Bool) (symbol : String) :
    ∀ c ∈ (cacheGet env fresh symbol).1, c ∈ preCalls := by
  intro c hc
  unfold cacheGet at hc
  simp only [List.mem_append] at hc
  rcases hc with hc | hc <;> split at hc <;> simp_all [preCalls]

theorem getContractMetaLoop_calls (env : Env) (fresh : Bool) (cs : List String) :
    ∀ c ∈ (getContractMetaLoop env fresh cs).1, c ∈ preCalls := by
  induction cs generalizing fresh with
  | nil => intro c hc; simp [getContractMetaLoop] at hc
  | cons c0 rest ih =>
    intro c hc
    unfold getContractMetaLoop at hc
    dsimp only at hc
    split at hc
    · exact cacheGet_calls _ _ _ _ hc
    · simp only [List.mem_append] at hc
      rcases hc with hc | hc
      · exact cacheGet_calls _ _ _ _ hc
      · exact ih _ _ hc

theorem getContractMeta_calls (env : Env) (profiles : List SpeciesProfile)
    (symbol : Option String) :
    ∀ c ∈ (getContractMeta env profiles symbol).1, c ∈ preCalls := by
  intro c hc
  unfold getContractMeta at hc
  dsimp only at hc
  split at hc <;> exact getContractMetaLoop_calls _ _ _ _ hc

theorem prepareOrder_calls (env : Env) (profiles : List SpeciesProfile)
    (order : EncounterOrder) :
    ∀ c ∈ (prepareOrder env profiles order).1, c ∈ preCalls := by
  intro c hc
  unfold prepareOrder at hc
  dsimp only at hc
  split at hc
  · simp at hc
  · split at hc
    · simp at hc
    · split at hc
      · exact resolveMarkPrice_calls _ _ _ hc
      · split at hc <;> exact resolveMarkPrice_calls _ _ _ hc

theorem resolvePositionMode_calls (s : Settings) (env : Env) :
    ∀ c ∈ (resolvePositionMode s env).1, c ∈ preCalls := by
  intro c hc
  unfold resolvePositionMode at hc
  split at hc <;> simp_all [preCalls]

theorem clampLeverage_calls (env : Env) (prep : ExchangePreparation)
    (requested : Int) :
    ∀ c ∈ (clampLeverage env prep requested).callTrace, c ∈ preCalls := by
  intro c hc
  unfold clampLeverage at hc
  dsimp only at hc
  split at hc
  · simp at hc
  · split at hc
    · simp at hc
    · split at hc <;> simp_all [preCalls]

theorem embedStopLoss_calls (env : Env) (profiles : List SpeciesProfile)
    (order : EncounterOrder) (prep : ExchangePreparation) :
    ∀ c ∈ (embedStopLoss env profiles order prep).1, c ∈ preCalls := by
  intro c hc
  unfold embedStopLoss at hc
  dsimp only at hc
  repeat' split at hc
  all_goals (try (simp only [List.mem_append] at hc; rcases hc with hc | hc))
  all_goals (try exact getContractMeta_calls env profiles prep.profile.perp_symbol _ hc)
  all_goals
    first
    | exact absurd hc (List.not_mem_nil _)
    | (rw [List.mem_singleton] at hc; subst hc; decide)

theorem stepBind_calls {α β : Type} (x : List NetCall × Except OrderErr α)
    (f : α → List NetCall × Except OrderErr β) (c : NetCall)
    (hc : c ∈ (stepBind x f).1) :
    c ∈ x.1 ∨ ∃ a, x.2 = .ok a ∧ c ∈ (f a).1 := by
  unfold stepBind at hc
  split at hc
  · exact Or.inl hc
  · simp only [List.mem_append] at hc
    rcases hc with hc | hc
    · exact Or.inl hc
    · exact Or.inr ⟨_, ‹_›, hc⟩

theorem stepBind_ok {α β : Type} (x : List NetCall × Except OrderErr α)
    (f : α → List NetCall × Except OrderErr β) (b : β)
    (h : (stepBind x f).2 = .ok b) :
    ∃ a, x.2 = .ok a ∧ (f a).2 = .ok b := by
  unfold stepBind at h
  split at h
  · simp at h
  · exact ⟨_, ‹_›, h⟩

theorem guardStage_calls (s : Settings) (env : Env) (order : EncounterOrder) :
    ∀ c ∈ (guardStage s env order).1, c ∈ preCalls := by
  intro c hc
  unfold guardStage at hc
  dsimp only at hc
  exact listPartyStatus_calls _ _ _ _ hc

theorem translateMetaStage_calls (env : Env) (profiles : List SpeciesProfile)
    (oid mm : String) (order1 : EncounterOrder) :
    ∀ c ∈ (translateMetaStage env profiles oid mm order1).1, c ∈ preCalls := by
  intro c hc
  unfold translateMetaStage at hc
  dsimp only at hc
  split at hc
  · simp at hc
  · exact getContractMeta_calls _ _ _ _ hc

theorem finishStage_calls (s : Settings) (env : Env) (am : AppliedMeta) :
    ∀ c ∈ (finishStage s env am).1, c ∈ preCalls := by
  intro c hc
  unfold finishStage at hc
  dsimp only at hc
  simp only [List.mem_append] at hc
  rcases hc with hc | hc
  · split at hc
    · exact resolvePositionMode_calls _ _ _ hc
    · simp at hc
  · repeat' split at hc
    all_goals
      first
      | exact clampLeverage_calls _ _ _ _ hc
      | simp at hc

theorem embedStage_calls (s : Settings) (env : Env)
    (profiles : List SpeciesProfile) (order : EncounterOrder)
    (ctx : PreContext) :
    ∀ c ∈ (embedStage s env profiles order ctx).1, c ∈ preCalls := by
  intro c hc
  unfold embedStage at hc
  dsimp only at hc
  split at hc
  · split at hc <;> exact embedStopLoss_calls _ _ _ _ _ hc
  · simp at hc

theorem preDispatch_calls (s : Settings) (env : Env)
    (profiles : List SpeciesProfile) (oid mm : String)
    (order : EncounterOrder) :
    ∀ c ∈ (preDispatch s env profiles oid mm order).1, c ∈ preCalls := by
  intro c hc
  unfold preDispatch at hc
  rcases stepBind_calls _ _ _ hc with h1 | ⟨_, _, h1⟩
  · simp at h1
  rcases stepBind_calls _ _ _ h1 with h2 | ⟨_, _, h2⟩
  · exact guardStage_calls _ _ _ _ h2
  rcases stepBind_calls _ _ _ h2 with h3 | ⟨o1, _, h3⟩
  · exact prepareOrder_calls _ _ _ _ h3
  rcases stepBind_calls _ _ _ h3 with h4 | ⟨am, _, h4⟩
  · exact translateMetaStage_calls _ _ _ _ _ _ h4
  rcases stepBind_calls _ _ _ h4 with h5 | ⟨ctx, _, h5⟩
  · exact finishStage_calls _ _ _ _ h5
  rcases stepBind_calls _ _ _ h5 with h6 | ⟨_, _, h6⟩
  · simp at h6
  exact embedStage_calls _ _ _ _ _ _ h6

theorem placeOrder_not_pre (s : Settings) (env : Env)
    (profiles : List SpeciesProfile) (oid mm : String)
    (order : EncounterOrder) :
    NetCall.placeOrder ∉ (preDispatch s env profiles oid mm order).1 := by
  intro hc
  exact absurd (preDispatch_calls s env profiles oid mm order _ hc) (by decide)

theorem attachStop_not_pre (s : Settings) (env : Env)
    (profiles : List SpeciesProfile) (oid mm : String)
    (order : EncounterOrder) :
    NetCall.attachStop ∉ (preDispatch s env profiles oid mm order).1 := by
  intro hc
  exact absurd (preDispatch_calls s env profiles oid mm order _ hc) (by decide)


/-! ### Inversion lemmas for the pre-dispatch pipeline -/

theorem prepareOrder_ok_inv (env : Env) (profiles : List SpeciesProfile)
    (order order1 : EncounterOrder)
    (h : (prepareOrder env profiles order).2 = .ok order1) :
    order1.action = order.action ∧ order1.order_style = order.order_style ∧
    order1.stop_loss_mode = order.stop_loss_mode ∧
    order1.stop_loss_value = order.stop_loss_value ∧
    order1.limit_price = order.limit_price := by
  unfold prepareOrder at h
  dsimp only at h
  repeat' split at h
  all_goals
    first
    | (injection h with h; subst h; exact ⟨rfl, rfl, rfl, rfl, rfl⟩)
    | simp at h

theorem applyContractMeta_ok_inv (order : EncounterOrder)
    (prep : ExchangePreparation) (meta : ContractMeta) (am : AppliedMeta)
    (h : applyContractMeta order prep meta = .ok am) :
    am.order.action = order.action ∧
    am.order.stop_loss_mode = order.stop_loss_mode ∧
    (order.stop_loss_value = none → am.order.stop_loss_value = none) ∧
    am.prep.route = prep.route ∧ am.prep.direction = prep.direction ∧
    am.prep.profile = prep.profile := by
  unfold applyContractMeta at h
  dsimp only at h
  repeat' split at h
  all_goals
    first
    | (injection h with h; subst h;
       refine ⟨rfl, rfl, ?_, rfl, rfl, rfl⟩; intro hnone; simp_all)
    | simp at h

theorem applyPositionMode_fields (prep : ExchangePreparation)
    (pm : Option String) (order : EncounterOrder) :
    (applyPositionMode prep pm order).route = prep.route ∧
    (applyPositionMode prep pm order).direction = prep.direction ∧
    (applyPositionMode prep pm order).profile = prep.profile ∧
    (applyPositionMode prep pm order).contract_meta = prep.contract_meta := by
  unfold applyPositionMode
  dsimp only
  repeat' split
  all_goals exact ⟨rfl, rfl, rfl, rfl⟩

theorem clampLeverage_fields (env : Env) (prep : ExchangePreparation)
    (r : Int) :
    (clampLeverage env prep r).prep.route = prep.route ∧
    (clampLeverage env prep r).prep.direction = prep.direction ∧
    (clampLeverage env prep r).prep.profile = prep.profile ∧
    (clampLeverage env prep r).prep.contract_meta = prep.contract_meta := by
  unfold clampLeverage
  dsimp only
  repeat' split
  all_goals exact ⟨rfl, rfl, rfl, rfl⟩

theorem finishStage_ok_inv (s : Settings) (env : Env) (am : AppliedMeta)
    (ctx : PreContext) (h : (finishStage s env am).2 = .ok ctx) :
    ctx.order2 = am.order ∧ ctx.prep3.route = am.prep.route ∧
    ctx.prep3.direction = am.prep.direction ∧
    ctx.prep3.profile = am.prep.profile ∧
    ctx.prep3.contract_meta = am.prep.contract_meta := by
  unfold finishStage at h
  dsimp only at h
  injection h with h
  subst h
  refine ⟨rfl, ?_, ?_, ?_, ?_⟩ <;>
    (dsimp only
     repeat' split
     all_goals
       first
       | exact (clampLeverage_fields _ _ _).1.trans (applyPositionMode_fields _ _ _).1
       | exact (clampLeverage_fields _ _ _).2.1.trans (applyPositionMode_fields _ _ _).2.1
       | exact (clampLeverage_fields _ _ _).2.2.1.trans (applyPositionMode_fields _ _ _).2.2.1
       | exact (clampLeverage_fields _ _ _).2.2.2.trans (applyPositionMode_fields _ _ _).2.2.2
       | exact (applyPositionMode_fields _ _ _).1
       | exact (applyPositionMode_fields _ _ _).2.1
       | exact (applyPositionMode_fields _ _ _).2.2.1
       | exact (applyPositionMode_fields _ _ _).2.2.2)

theorem embedStopLoss_ok_shape (env : Env) (profiles : List SpeciesProfile)
    (o : EncounterOrder) (p : ExchangePreparation)
    (pr2 : ExchangePreparation × PVal)
    (h : (embedStopLoss env profiles o p).2 = .ok pr2) :
    ∃ pl, pr2.1 = { p with payload := pl } ∧
      phas pl "presetStopLossPrice" = true ∧
      phas pl "presetStopLossTriggerPrice" = true ∧
      phas pl "presetStopLossTriggerType" = true ∧
      phas pl "presetStopLossExecutePrice" = true := by
  unfold embedStopLoss at h
  dsimp only at h
  repeat' split at h
  all_goals
    first
    | (injection h with h; subst h;
       refine ⟨_, rfl, ?_, ?_, ?_, ?_⟩
       · exact phas_pset_of _ _ _ _ (phas_pset_of _ _ _ _
           (phas_pset_of _ _ _ _ (phas_pset_self _ _ _)))
       · exact phas_pset_of _ _ _ _ (phas_pset_of _ _ _ _ (phas_pset_self _ _ _))
       · exact phas_pset_of _ _ _ _ (phas_pset_self _ _ _)
       · exact phas_pset_self _ _ _)
    | simp at h

theorem translateMetaStage_ok_inv (env : Env) (profiles : List SpeciesProfile)
    (oid mm : String) (order1 : EncounterOrder) (am : AppliedMeta)
    (h : (translateMetaStage env profiles oid mm order1).2 = .ok am) :
    am.order.action = order1.action ∧
    am.order.stop_loss_mode = order1.stop_loss_mode ∧
    (order1.stop_loss_value = none → am.order.stop_loss_value = none) := by
  unfold translateMetaStage at h
  dsimp only at h
  split at h
  · simp at h
  · have hx := applyContractMeta_ok_inv _ _ _ _ h
    exact ⟨hx.1, hx.2.1, hx.2.2.1⟩

theorem preDispatch_ok_inv (s : Settings) (env : Env)
    (profiles : List SpeciesProfile) (oid mm : String)
    (order : EncounterOrder) (st : PreState)
    (h : (preDispatch s env profiles oid mm order).2 = .ok st) :
    st.order.action = order.action ∧
    st.order.stop_loss_mode = order.stop_loss_mode ∧
    (order.stop_loss_value = none → st.order.stop_loss_value = none) ∧
    validateStopLoss st.order st.prep = .ok () ∧
    (st.embedded = true ↔
      (requiresStopLoss st.order st.prep = true ∧ st.prep.route = "perp" ∧
       s.embedSL = true ∧ st.order.stop_loss_mode.isSome = true ∧
       st.order.stop_loss_value.isSome = true)) ∧
    (st.embedded = true →
      phas st.prep.payload "presetStopLossPrice" = true ∧
      phas st.prep.payload "presetStopLossTriggerPrice" = true ∧
      phas st.prep.payload "presetStopLossTriggerType" = true ∧
      phas st.prep.payload "presetStopLossExecutePrice" = true) := by
  unfold preDispatch at h
  obtain ⟨u0, h0, h⟩ := stepBind_ok _ _ _ h
  obtain ⟨u1, h1, h⟩ := stepBind_ok _ _ _ h
  obtain ⟨order1, h2, h⟩ := stepBind_ok _ _ _ h
  obtain ⟨am, h3, h⟩ := stepBind_ok _ _ _ h
  obtain ⟨ctx, h4, h⟩ := stepBind_ok _ _ _ h
  obtain ⟨u5, h5, h⟩ := stepBind_ok _ _ _ h
  obtain ⟨hPa, hPs, hPm, hPv, hPl⟩ := prepareOrder_ok_inv _ _ _ _ h2
  obtain ⟨hTa, hTm, hTv⟩ := translateMetaStage_ok_inv _ _ _ _ _ _ h3
  obtain ⟨hFo, hFr, hFd, hFp, hFc⟩ := finishStage_ok_inv _ _ _ _ h4
  have hval : validateStopLoss ctx.order2 ctx.prep3 = .ok () := by
    dsimp only at h5
    cases u5
    exact h5
  have hoa : ctx.order2.action = order.action := by
    rw [hFo, hTa, hPa]
  have hom : ctx.order2.stop_loss_mode = order.stop_loss_mode := by
    rw [hFo, hTm, hPm]
  have hov : order.stop_loss_value = none → ctx.order2.stop_loss_value = none := by
    intro hn
    rw [hFo]
    exact hTv (hPv.trans hn)
  unfold embedStage at h
  dsimp only at h
  split at h
  · rename_i hcond
    split at h
    · simp at h
    · rename_i pr2 hok
      injection h with h
      subst h
      obtain ⟨pl, hpl, hk1, hk2, hk3, hk4⟩ :=
        embedStopLoss_ok_shape env profiles ctx.order2 ctx.prep3 pr2 (by
          rw [hok])
      refine ⟨hoa, hom, hov, ?_, ?_, ?_⟩
      · show validateStopLoss ctx.order2 pr2.1 = .ok ()
        rw [hpl]
        exact hval
      · rw [hpl]
        exact iff_of_true rfl
          ⟨hcond.1, hcond.2.1, hcond.2.2.1, hcond.2.2.2⟩
      · intro _
        show phas pr2.1.payload _ = true ∧ _
        rw [hpl]
        exact ⟨hk1, hk2, hk3, hk4⟩
  · rename_i hcond
    injection h with h
    subst h
    refine ⟨hoa, hom, hov, hval, ?_, ?_⟩
    · constructor
      · intro hfalse
        exact absurd hfalse (by simp)
      · intro hconj
        exact absurd ⟨hconj.1, hconj.2⟩ hcond
    · intro hfalse
      exact absurd hfalse (by simp)

theorem validate_requires_some (o : EncounterOrder) (p : ExchangePreparation)
    (hreq : requiresStopLoss o p = true)
    (hval : validateStopLoss o p = .ok ()) :
    o.stop_loss_mode.isSome = true ∧ o.stop_loss_value.isSome = true := by
  unfold validateStopLoss at hval
  rw [if_neg (by simp [hreq])] at hval
  cases hm : o.stop_loss_mode with
  | none => rw [hm] at hval; simp at hval
  | some m =>
    cases hv : o.stop_loss_value with
    | none => rw [hm, hv] at hval; simp at hval
    | some v => simp [hm, hv]

theorem attachStopLoss_count (env : Env) (profiles : List SpeciesProfile)
    (prep : ExchangePreparation) (v : ℚ) (h : prep.route = "perp") :
    ((attachStopLoss env profiles prep v).1).count NetCall.attachStop = 1 := by
  unfold attachStopLoss
  rw [if_neg (by simp [h])]
  have h0 : ∀ c ∈ (match prep.contract_meta with
      | some m => (([] : List NetCall), m)
      | none => getContractMeta env profiles prep.profile.perp_symbol).1,
      c ∈ preCalls := by
    split
    · simp
    · exact getContractMeta_calls env profiles _
  dsimp only
  split
  all_goals
    rw [List.count_append,
      List.count_eq_zero.mpr (fun hc => by
        have hp := h0 _ hc
        simp [preCalls] at hp)]
    simp


unseal Rat.add Rat.mul Rat.sub Rat.inv in
/-- **C4 counterexample.** An opening order with no stop-loss declared does
fail with the stop-loss validation error before dispatch, but only *after*
the contract-metadata fetch, the position-mode probe, and the leverage query
have already gone out to the exchange — refuting the "before any network
call" part of the claim. -/
theorem claim_C4_counterexample :
    requiresStopLoss c4Order
        (toExchangePayload sampleProfile "oid" "crossed" c4Order) = true ∧
      c4Order.stop_loss_mode = none ∧
      (executeEncounter sampleSettings sampleEnv [sampleProfile] "oid"
          "crossed" c4Order).2 = .error .missingStopLoss ∧
      NetCall.contractsFetch ∈ (executeEncounter sampleSettings sampleEnv
          [sampleProfile] "oid" "crossed" c4Order).1 ∧
      NetCall.posModeProbe ∈ (executeEncounter sampleSettings sampleEnv
          [sampleProfile] "oid" "crossed" c4Order).1 ∧
      NetCall.leverageQuery ∈ (executeEncounter sampleSettings sampleEnv
          [sampleProfile] "oid" "crossed" c4Order).1 ∧
      NetCall.placeOrder ∉ (executeEncounter sampleSettings sampleEnv
          [sampleProfile] "oid" "crossed" c4Order).1 := by
  decide

/-- **C4 (amended).** For every opening (CATCH) or reduce (RELEASE)
encounter whose `stop_loss_mode` or `stop_loss_value` is absent,
`execute_encounter` fails and the order is never dispatched to the exchange
(no `placeOrder` call is made) — though guardrail, metadata, position-mode
and leverage calls may already have happened. -/
theorem claim_C4_amended (s : Settings) (env : Env)
    (profiles : List SpeciesProfile) (oid mm : String) (order : EncounterOrder)
    (hact : order.action = .CATCH ∨ order.action = .RELEASE)
    (hmiss : order.stop_loss_mode = none ∨ order.stop_loss_value = none) :
    (∃ e, (executeEncounter s env profiles oid mm order).2 = .error e) ∧
      NetCall.placeOrder ∉ (executeEncounter s env profiles oid mm order).1 := by
  have hrun : order.action ≠ .RUN := by
    rcases hact with h | h <;> simp [h]
  unfold executeEncounter
  by_cases hL : s.tradingLocked = true ∧ order.action ≠ .RUN
  · rw [if_pos hL]
    exact ⟨⟨_, rfl⟩, by simp⟩
  · rw [if_neg hL, if_neg hrun]
    dsimp only
    split
    · rename_i e heq
      exact ⟨⟨e, rfl⟩, fun hc =>
        placeOrder_not_pre s env profiles oid mm order hc⟩
    · rename_i st heq
      obtain ⟨hsa, hsm, hsv, hval, hiff, hembp⟩ :=
        preDispatch_ok_inv _ _ _ _ _ _ _ heq
      by_cases hroute : st.prep.route = "perp"
      · exfalso
        have hreq : requiresStopLoss st.order st.prep = true := by
          unfold requiresStopLoss
          rcases hact with h | h <;> simp [hsa, h, hroute]
        have hsome := validate_requires_some st.order st.prep hreq hval
        rcases hmiss with hm | hm
        · rw [hsm.trans hm] at hsome
          simp at hsome
        · rw [hsv hm] at hsome
          simp at hsome
      · refine ⟨⟨.unsupportedRoute st.prep.route, ?_⟩, ?_⟩
        · show (postDispatch env profiles st).2 = _
          unfold postDispatch
          rw [if_pos hroute]
        · intro hc
          rw [List.mem_append] at hc
          rcases hc with hc | hc
          · exact placeOrder_not_pre s env profiles oid mm order hc
          · unfold postDispatch at hc
            rw [if_pos hroute] at hc
            simp at hc

unseal Rat.add Rat.mul Rat.sub Rat.inv in
/-- Witness for the amended C4: a reduce order on the perpetual route with
no stop-loss declared fails and never reaches `placeOrder`. -/
theorem claim_C4_amended_witness :
    (c4Order.action = .CATCH ∨ c4Order.action = .RELEASE) ∧
      (c4Order.stop_loss_mode = none ∨ c4Order.stop_loss_value = none) ∧
      ((∃ e, (executeEncounter sampleSettings sampleEnv [sampleProfile]
          "oid" "crossed" c4Order).2 = .error e) ∧
        NetCall.placeOrder ∉ (executeEncounter sampleSettings sampleEnv
          [sampleProfile] "oid" "crossed" c4Order).1) :=
  ⟨by decide, by decide,
   claim_C4_amended sampleSettings sampleEnv [sampleProfile] "oid" "crossed"
     c4Order (by decide) (by decide)⟩


unseal Rat.add Rat.mul Rat.sub Rat.inv in
/-- **C6 counterexample.** On the spot route a stop-loss-requiring order
does not get "exactly one protective-order call after the main order
succeeds": the dispatch itself is rejected (`unsupported route`) and no
protective-order call is ever made. -/
theorem claim_C6_counterexample :
    requiresStopLoss c6Order
        (toExchangePayload spotOnlyProfile "oid" "crossed" c6Order) = true ∧
      (toExchangePayload spotOnlyProfile "oid" "crossed" c6Order).route = "spot" ∧
      (executeEncounter sampleSettings sampleEnv [spotOnlyProfile] "oid"
          "crossed" c6Order).2 = .error (.unsupportedRoute "spot") ∧
      (executeEncounter sampleSettings sampleEnv [spotOnlyProfile] "oid"
          "crossed" c6Order).1.count NetCall.attachStop = 0 := by
  decide

/-- **C6 (amended).** For a pre-dispatch state whose order requires a
stop-loss: if the stop-loss was embedded, the four preset fields are on the
main payload and no protective-order (`attachStop`) call occurs anywhere —
neither before nor after dispatch; if it was not embedded and the route is
perpetual, a successful dispatch is followed by exactly one protective-order
call, strictly after the `placeOrder` call; if the route is not perpetual,
dispatch is rejected and no protective-order call is made. -/
theorem claim_C6_amended (s : Settings) (env : Env)
    (profiles : List SpeciesProfile) (oid mm : String)
    (order : EncounterOrder) (st : PreState)
    (hpd : (preDispatch s env profiles oid mm order).2 = .ok st)
    (hreq : requiresStopLoss st.order st.prep = true) :
    (st.embedded = true →
      (phas st.prep.payload "presetStopLossPrice" = true ∧
       phas st.prep.payload "presetStopLossTriggerPrice" = true ∧
       phas st.prep.payload "presetStopLossTriggerType" = true ∧
       phas st.prep.payload "presetStopLossExecutePrice" = true) ∧
      NetCall.attachStop ∉ (postDispatch env profiles st).1 ∧
      NetCall.attachStop ∉ (preDispatch s env profiles oid mm order).1) ∧
    (st.embedded = false → st.prep.route = "perp" →
      ∀ out, (postDispatch env profiles st).2 = .ok out →
        ∃ rest, (postDispatch env profiles st).1 = .placeOrder :: rest ∧
          rest.count NetCall.attachStop = 1) ∧
    (st.prep.route ≠ "perp" →
      (postDispatch env profiles st).2 = .error (.unsupportedRoute st.prep.route) ∧
      NetCall.attachStop ∉ (postDispatch env profiles st).1) := by
  obtain ⟨hsa, hsm, hsv, hval, hiff, hembp⟩ := preDispatch_ok_inv _ _ _ _ _ _ _ hpd
  refine ⟨?_, ?_, ?_⟩
  · intro hemb
    have hroute := (hiff.mp hemb).2.1
    refine ⟨hembp hemb, ?_, attachStop_not_pre s env profiles oid mm order⟩
    unfold postDispatch
    rw [if_neg (by simp [hroute])]
    split
    · simp
    · dsimp only
      rw [if_neg (by simp [hemb])]
      simp
  · intro hne hperp out hout
    obtain ⟨hmS, hvS⟩ := validate_requires_some st.order st.prep hreq hval
    obtain ⟨m, hm⟩ := Option.isSome_iff_exists.mp hmS
    obtain ⟨v, hv⟩ := Option.isSome_iff_exists.mp hvS
    by_cases hd : env.dispatchOk = true
    · cases m with
      | PRICE =>
        cases har : (attachStopLoss env profiles st.prep v).2 with
        | error e =>
          exfalso
          simp [postDispatch, hperp, hd, hreq, hne, hm, hv, har] at hout
        | ok r =>
          refine ⟨(attachStopLoss env profiles st.prep v).1, ?_,
            attachStopLoss_count env profiles st.prep v hperp⟩
          simp [postDispatch, hperp, hd, hreq, hne, hm, hv, har]
      | PERCENT =>
        cases hsp : env.sensorPrice with
        | none =>
          exfalso
          simp [postDispatch, hperp, hd, hreq, hne, hm, hv, hsp] at hout
        | some sp =>
          cases har : (attachStopLoss env profiles st.prep
              (computeDistanceStopFromPrice st.prep v sp)).2 with
          | error e =>
            exfalso
            simp [postDispatch, hperp, hd, hreq, hne, hm, hv, hsp, har] at hout
          | ok r =>
            refine ⟨NetCall.tickersFetch :: (attachStopLoss env profiles st.prep
                (computeDistanceStopFromPrice st.prep v sp)).1, ?_, ?_⟩
            · simp [postDispatch, hperp, hd, hreq, hne, hm, hv, hsp, har]
            · simp [List.count_cons,
                attachStopLoss_count env profiles st.prep
                  (computeDistanceStopFromPrice st.prep v sp) hperp]
    · exfalso
      simp [postDispatch, hperp, hd] at hout
  · intro hnp
    unfold postDispatch
    rw [if_pos hnp]
    exact ⟨rfl, by simp⟩


unseal Rat.add Rat.mul Rat.sub Rat.inv in
/-- Witness for the amended C6 on the reference catch order with embedding
disabled: the pre-dispatch pipeline succeeds, the stop-loss is required, and
the attach/embed dichotomy holds for the resulting state. -/
theorem claim_C6_amended_witness :
    (preDispatch sampleSettings sampleEnv [sampleProfile] "oid" "crossed"
        c9CatchOrder).2 = .ok c6St ∧
      requiresStopLoss c6St.order c6St.prep = true ∧
      ((c6St.embedded = true →
        (phas c6St.prep.payload "presetStopLossPrice" = true ∧
         phas c6St.prep.payload "presetStopLossTriggerPrice" = true ∧
         phas c6St.prep.payload "presetStopLossTriggerType" = true ∧
         phas c6St.prep.payload "presetStopLossExecutePrice" = true) ∧
        NetCall.attachStop ∉ (postDispatch sampleEnv [sampleProfile] c6St).1 ∧
        NetCall.attachStop ∉ (preDispatch sampleSettings sampleEnv
          [sampleProfile] "oid" "crossed" c9CatchOrder).1) ∧
      (c6St.embedded = false → c6St.prep.route = "perp" →
        ∀ out, (postDispatch sampleEnv [sampleProfile] c6St).2 = .ok out →
          ∃ rest, (postDispatch sampleEnv [sampleProfile] c6St).1 =
              .placeOrder :: rest ∧
            rest.count NetCall.attachStop = 1) ∧
      (c6St.prep.route ≠ "perp" →
        (postDispatch sampleEnv [sampleProfile] c6St).2 =
          .error (.unsupportedRoute c6St.prep.route) ∧
        NetCall.attachStop ∉ (postDispatch sampleEnv [sampleProfile] c6St).1)) :=
  ⟨by decide, by decide,
   claim_C6_amended sampleSettings sampleEnv [sampleProfile] "oid" "crossed"
     c9CatchOrder c6St (by decide) (by decide)⟩
end Arena
